import Mathlib

/-!
Shallow embedding of the `project-analyzer` repository's core
(`app/code_parser.py`, `app/text_loader.py`, `app/diagram_generator.py`,
`app/diagram_generator_mermaid.py`, `app/tech_stack_analyzer.py`).

The Python AST handed to the extractor by `ast.parse` is modelled by the
inductive types `Expr` and `Stmt` below; the `_ModuleVisitor` single-pass
traversal is modelled as explicit state passing over `VState`.  File I/O and
the external `ast.parse` call are modelled by `Except`-valued inputs carrying
either the parsed tree or the error the collaborator raised.
-/

namespace ProjectAnalyzer

/-- Python expression nodes the extractor can observe.  `constStr s parsed`
models a string constant; its `parsed` field records the result of the
external `ast.parse(s, mode="eval")` call that `_TypeNameVisitor.visit_Constant`
performs on forward references (`none` models a `SyntaxError` there).
`constOther` models any non-string literal constant (a number, `True`, ...). -/
inductive Expr where
  | name (id : String)
  | attrAccess (value : Expr) (attrName : String)
  | call (func : Expr) (args : List Expr)
  | constStr (s : String) (parsed : Option Expr)
  | constOther
  | subscript (value : Expr) (slice : Expr)
  | tupleE (elts : List Expr)

/-- Python statement nodes the extractor can observe.  `otherStmt children`
models every other statement kind (`if`, `while`, `try`, `with`, ...): the
visitor has no handler for those, so `generic_visit` simply recurses into the
child statements. -/
inductive Stmt where
  | importS (names : List (String × Option String))
  | importFrom (level : Nat) (moduleName : Option String)
      (names : List (String × Option String))
  | classDef (nm : String) (bases : List Expr) (body : List Stmt)
      (lineno : Option Nat)
  | funcDef (isAsync : Bool) (nm : String) (decorators : List Expr)
      (body : List Stmt) (lineno : Option Nat)
  | annAssign (target : Expr) (ann : Expr) (value : Option Expr)
      (lineno : Option Nat)
  | assign (targets : List Expr) (value : Expr) (lineno : Option Nat)
  | otherStmt (children : List Stmt)

mutual
/-- Models `_safe_unparse` / `ast.unparse` on the expression shapes of `Expr`.
On trees produced by `ast.parse`, `ast.unparse` succeeds, so the model is a
total printer; `constOther` (a non-string literal) prints as a representative
numeral, exactly as faithful to the claims as any concrete literal would be. -/
def Expr.unparse : Expr → String
  | .name id => id
  | .attrAccess v a => v.unparse ++ "." ++ a
  | .call f args => f.unparse ++ "(" ++ unparseArgs args ++ ")"
  | .constStr s _ => "'" ++ s ++ "'"
  | .constOther => "42"
  | .subscript v s => v.unparse ++ "[" ++ s.unparse ++ "]"
  | .tupleE elts => "(" ++ unparseArgs elts ++ ")"

def unparseArgs : List Expr → String
  | [] => ""
  | [e] => e.unparse
  | e :: rest => e.unparse ++ ", " ++ unparseArgs rest
end

mutual
/-- Models `_ModuleVisitor._extract_type_names`'s inner `_TypeNameVisitor`
walk, in visit order: a `Name` contributes its identifier, an `Attribute`
contributes only its final segment (and does not recurse into its value), a
string constant contributes the names extracted from its re-parsed contents
(nothing if the re-parse failed), and every other node recurses into its
children. -/
def typeNames : Expr → List String
  | .name id => [id]
  | .attrAccess _ a => [a]
  | .call f args => typeNames f ++ typeNamesList args
  | .constStr _ parsed =>
    match parsed with
    | some e => typeNames e
    | none => []
  | .constOther => []
  | .subscript v s => typeNames v ++ typeNames s
  | .tupleE elts => typeNamesList elts

def typeNamesList : List Expr → List String
  | [] => []
  | e :: rest => typeNames e ++ typeNamesList rest
end

/-- Models `_ModuleVisitor._extract_type_names` (the Python function returns a
`set`; the model returns the visited names deduplicated). -/
def extractTypeNames : Option Expr → List String
  | none => []
  | some e => (typeNames e).dedup

/-- Models `app/models.py` `FunctionInfo`. -/
structure FunctionInfo where
  name : String
  lineno : Option Nat
  decorators : List String
  deriving DecidableEq, Repr

/-- Models `app/models.py` `AttributeInfo`. -/
structure AttributeInfo where
  name : String
  type : Option String
  lineno : Option Nat
  is_instance : Bool
  declared_in_init : Bool
  deriving DecidableEq, Repr

/-- Models `app/models.py` `CompositionInfo` (`attr` stands for the Python
field `attribute`). -/
structure CompositionInfo where
  owner : String
  attr : String
  target : String
  lineno : Option Nat
  kind : String
  deriving DecidableEq, Repr

/-- Models `app/models.py` `ClassInfo`. -/
structure ClassInfo where
  name : String
  bases : List String
  init : Option FunctionInfo
  methods : List FunctionInfo
  attributes : List AttributeInfo
  compositions : List CompositionInfo
  lineno : Option Nat
  deriving DecidableEq, Repr

/-- Models `app/models.py` `ModuleInfo`, together with the `parse_error`
metadata that `CodeParser.parse_file` attaches via `setattr`. -/
structure ModuleInfo where
  path : String
  classes : List ClassInfo
  functions : List FunctionInfo
  imports : List String
  parse_error : Option String
  deriving DecidableEq, Repr

/-- The mutable state of `_ModuleVisitor`.  Python mutates `ClassInfo` objects
reachable both from `self.classes` and from `self._class_stack`; the model
keeps the single list `classes` and lets the class stack hold indices into it,
so every mutation through the stack is visible in the list, exactly as the
shared Python references are.  Stack tops (`[-1]` in Python) are list heads
here. -/
structure VState where
  imports : List String
  functions : List FunctionInfo
  classes : List ClassInfo
  classStack : List Nat
  functionDepth : Nat
  functionStack : List String
  seenAttrs : List (String × String × Bool)
  seenComps : List (String × String × String × String)

def VState.initial : VState :=
  { imports := [], functions := [], classes := [], classStack := []
    functionDepth := 0, functionStack := [], seenAttrs := [], seenComps := [] }

/-- In-place update of the class object at index `i` (Python mutates the
object aliased by `self._class_stack[-1]`). -/
def modifyAt : Nat → (ClassInfo → ClassInfo) → List ClassInfo → List ClassInfo
  | _, _, [] => []
  | 0, f, c :: rest => f c :: rest
  | n + 1, f, c :: rest => c :: modifyAt n f rest

/-- Models `_ModuleVisitor._in_method_scope`. -/
def VState.inMethodScope (st : VState) : Bool :=
  !st.functionStack.isEmpty

/-- Models `_ModuleVisitor._is_in_init`. -/
def VState.isInInit (st : VState) : Bool :=
  match st.functionStack with
  | n :: _ => n == "__init__"
  | [] => false

/-- Models `_ModuleVisitor._get_self_attr_name`. -/
def getSelfAttrName : Expr → Option String
  | .attrAccess (.name "self") a => some a
  | _ => none

/-- Models `_ModuleVisitor._infer_type_from_value`. -/
def inferTypeFromValue : Expr → Option String
  | .call f _ => some f.unparse
  | _ => none

/-- Models `_ModuleVisitor._PRIMITIVE_TYPES`. -/
def PRIMITIVE_TYPES : List String :=
  ["int", "str", "float", "bool", "dict", "list", "set", "tuple", "None"]

/-- Models `_ModuleVisitor._add_instance_attr`. -/
def addInstanceAttr (st : VState) (i : Nat) (nm : String) (ty : Option String)
    (ln : Option Nat) : VState :=
  match st.classes[i]? with
  | none => st
  | some cls =>
    if (cls.name, nm, true) ∈ st.seenAttrs then st
    else
      { st with
        seenAttrs := (cls.name, nm, true) :: st.seenAttrs
        classes := modifyAt i (fun c =>
          { c with attributes := c.attributes ++
              [{ name := nm, type := ty, lineno := ln, is_instance := true
                 declared_in_init := st.isInInit }] }) st.classes }

/-- Models `_ModuleVisitor._add_class_attr`. -/
def addClassAttr (st : VState) (i : Nat) (nm : String) (ty : Option String)
    (ln : Option Nat) : VState :=
  match st.classes[i]? with
  | none => st
  | some cls =>
    if (cls.name, nm, false) ∈ st.seenAttrs then st
    else
      { st with
        seenAttrs := (cls.name, nm, false) :: st.seenAttrs
        classes := modifyAt i (fun c =>
          { c with attributes := c.attributes ++
              [{ name := nm, type := ty, lineno := ln, is_instance := false
                 declared_in_init := false }] }) st.classes }

/-- Models `_ModuleVisitor._add_composition`. -/
def addComposition (st : VState) (i : Nat) (attrName target : String)
    (ln : Option Nat) (kind : String) : VState :=
  if target ∈ PRIMITIVE_TYPES then st
  else
    match st.classes[i]? with
    | none => st
    | some cls =>
      if (cls.name, attrName, target, kind) ∈ st.seenComps then st
      else
        { st with
          seenComps := (cls.name, attrName, target, kind) :: st.seenComps
          classes := modifyAt i (fun c =>
            { c with compositions := c.compositions ++
                [{ owner := cls.name, attr := attrName, target := target
                   lineno := ln, kind := kind }] }) st.classes }

/-- Models `_ModuleVisitor._handle_function_like`. -/
def handleFunctionLike (st : VState) (nm : String) (decorators : List Expr)
    (ln : Option Nat) : VState :=
  let fi : FunctionInfo :=
    { name := nm, lineno := ln, decorators := decorators.map Expr.unparse }
  match st.classStack with
  | i :: _ =>
    if nm == "__init__" then
      { st with classes := modifyAt i (fun c => { c with init := some fi }) st.classes }
    else
      { st with classes := modifyAt i (fun c =>
          { c with methods := c.methods ++ [fi] }) st.classes }
  | [] =>
    if st.functionDepth == 0 then { st with functions := st.functions ++ [fi] }
    else st

/-- Renders one `import`/`from`-alias into the canonical text that
`visit_Import`/`visit_ImportFrom` append to `self.imports`. -/
def importLine (prefixStr : String) (n : String) (asname : Option String) : String :=
  match asname with
  | some a => prefixStr ++ n ++ " as " ++ a
  | none => prefixStr ++ n

/-- The `self.x: T = ...` branch of `visit_AnnAssign`. -/
def annAssignSelfAttr (st : VState) (i : Nat) (target ann : Expr)
    (ln : Option Nat) : VState :=
  match getSelfAttrName target with
  | some a =>
    if st.inMethodScope then
      let st' := addInstanceAttr st i a (some ann.unparse) ln
      (extractTypeNames (some ann)).foldl
        (fun s t => addComposition s i a t ln "aggregation") st'
    else st
  | none => st

/-- The `x: T = ...` class-attribute branch of `visit_AnnAssign`. -/
def annAssignClassAttr (st : VState) (i : Nat) (target ann : Expr)
    (ln : Option Nat) : VState :=
  match target with
  | .name nm =>
    if st.inMethodScope then st
    else
      let st' := addClassAttr st i nm (some ann.unparse) ln
      (extractTypeNames (some ann)).foldl
        (fun s t => addComposition s i nm t ln "aggregation") st'
  | _ => st

/-- Models `_ModuleVisitor.visit_AnnAssign` (the statement has no child
statements, so `generic_visit` adds nothing further; the two `if` blocks of
the source run in sequence on targets that cannot satisfy both). -/
def visitAnnAssign (st : VState) (target ann : Expr) (ln : Option Nat) : VState :=
  match st.classStack with
  | [] => st
  | i :: _ => annAssignClassAttr (annAssignSelfAttr st i target ann ln) i target ann ln

/-- Models `_extract_type_names_from_str` applied to the string
`_safe_unparse(value.func)` that `_infer_type_from_value` produced: printing
the function expression and re-parsing the text yields a tree whose extracted
type names coincide with extracting from the expression directly (every
printable `Expr` shape round-trips up to type-name extraction), so the model
extracts from the call's function expression; a non-call value infers no type
and contributes no names. -/
def inferredTypeNames : Expr → List String
  | .call f _ => (typeNames f).dedup
  | _ => []

/-- Models the per-target body of `_ModuleVisitor.visit_Assign`. -/
def visitAssignTarget (i : Nat) (inMethod : Bool) (value : Expr)
    (ln : Option Nat) (st : VState) (tgt : Expr) : VState :=
  match getSelfAttrName tgt with
  | some a =>
    if inMethod then
      let st1 := addInstanceAttr st i a (inferTypeFromValue value) ln
      (inferredTypeNames value).foldl
        (fun s t => addComposition s i a t ln "composition") st1
    else st
  | none =>
    match tgt with
    | .name nm =>
      if inMethod then st
      else
        let st1 := addClassAttr st i nm (inferTypeFromValue value) ln
        (inferredTypeNames value).foldl
          (fun s t => addComposition s i nm t ln "composition") st1
    | _ => st

/-- Models `_ModuleVisitor.visit_Assign`. -/
def visitAssign (st : VState) (targets : List Expr) (value : Expr)
    (ln : Option Nat) : VState :=
  match st.classStack with
  | [] => st
  | i :: _ =>
    targets.foldl (visitAssignTarget i st.inMethodScope value ln) st

/-- Opening a class body in `visit_ClassDef`: append the fresh `ClassInfo` to
the module's class list (before recursing, so nested classes land as later
siblings) and push its index (the shared reference) onto the class stack. -/
def pushClassState (st : VState) (nm : String) (bases : List Expr)
    (ln : Option Nat) : VState :=
  { st with
    classes := st.classes ++
      [{ name := nm, bases := bases.map Expr.unparse, init := none,
         methods := [], attributes := [], compositions := [], lineno := ln }],
    classStack := st.classes.length :: st.classStack }

/-- Entering a callable body in `visit_FunctionDef`/`visit_AsyncFunctionDef`:
push the name and bump the nesting depth. -/
def pushFuncScope (st : VState) (nm : String) : VState :=
  { st with functionStack := nm :: st.functionStack,
            functionDepth := st.functionDepth + 1 }

mutual
/-- Models one `_ModuleVisitor.visit(node)` dispatch on a statement node,
including the `generic_visit` recursion into child statements (expressions
contain no statements, so recursing into them has no model effect). -/
def visitStmt (st : VState) : Stmt → VState
  | .importS names =>
    { st with imports := st.imports ++
        names.map (fun p => importLine "import " p.1 p.2) }
  | .importFrom level mod names =>
    let m :=
      if level ≠ 0 ∨ mod.isSome then
        String.join (List.replicate level ".") ++ mod.getD ""
      else ""
    { st with imports := st.imports ++
        names.map (fun p => importLine ("from " ++ m ++ " import ") p.1 p.2) }
  | .classDef nm bases body ln =>
    let st2 := visitStmts (pushClassState st nm bases ln) body
    { st2 with classStack := st2.classStack.tail }
  | .funcDef _ nm decs body ln =>
    let st3 := visitStmts (pushFuncScope (handleFunctionLike st nm decs ln) nm) body
    { st3 with functionStack := st3.functionStack.tail,
               functionDepth := st3.functionDepth - 1 }
  | .annAssign target ann _ ln => visitAnnAssign st target ann ln
  | .assign targets value ln => visitAssign st targets value ln
  | .otherStmt children => visitStmts st children

/-- Traversal of a statement list (a module or statement body). -/
def visitStmts (st : VState) : List Stmt → VState
  | [] => st
  | s :: rest => visitStmts (visitStmt st s) rest
end

/-- The syntax-error shape the external parsing collaborator raises
(`message`, `lineno`, `offset`). -/
structure SyntaxErr where
  msg : String
  lineno : Option Nat
  offset : Option Nat

/-- Runs a fresh `_ModuleVisitor` over a parsed module body. -/
def runVisitor (body : List Stmt) : VState :=
  visitStmts VState.initial body

/-- Formats the `parse_error` string `CodeParser.parse_file` builds from a
`SyntaxError`. -/
def formatSyntaxError (e : SyntaxErr) : String :=
  "SyntaxError: " ++ e.msg ++ " (line " ++
    (match e.lineno with | some n => toString n | none => "?") ++ ", col " ++
    (match e.offset with | some n => toString n | none => "?") ++ ")"

/-- Models `CodeParser.parse_file`.  The external `ast.parse` call is the
`Except` input: `.ok body` is a successfully parsed tree, `.error e` the
`SyntaxError` it raised (any non-syntax traversal exception lands in the same
caught-and-recorded branch in Python; the model traversal is total, so the
error branch is exactly the parse failure).  Source-encoding provenance is
orthogonal to the claims about this function and is modelled separately by
`read_python_source`. -/
def parse_file (path : String) (parseResult : Except SyntaxErr (List Stmt)) :
    ModuleInfo :=
  match parseResult with
  | .ok body =>
    let v := runVisitor body
    { path := path, classes := v.classes, functions := v.functions
      imports := v.imports, parse_error := none }
  | .error e =>
    { path := path, classes := [], functions := [], imports := []
      parse_error := some (formatSyntaxError e) }

/-! ## Diagram generators (`app/diagram_generator.py`, `app/diagram_generator_mermaid.py`) -/

/-- Python `str` whitespace (the characters `str.strip()` removes). -/
def isPySpace (c : Char) : Bool :=
  c == ' ' || c == '\t' || c == '\n' || c == '\r' || c == '\x0b' || c == '\x0c'

/-- Python `str.strip()`. -/
def stripChars (l : List Char) : List Char :=
  ((l.dropWhile isPySpace).reverse.dropWhile isPySpace).reverse

/-- Python `str.split(sep)` for a one-character separator. -/
def splitOnChar (c : Char) : List Char → List (List Char)
  | [] => [[]]
  | x :: rest =>
    let r := splitOnChar c rest
    if x == c then [] :: r
    else (x :: r.headD []) :: r.tail

/-- Models `_short_class_name` (identical in both generator files), over the
character list of the string (matching `str.strip`/`in`/`split`). -/
def shortClassName (raw : String) : String :=
  let name := stripChars raw.toList
  if name = [] then ""
  else
    let name := if name.any (fun c => c == '[') then (splitOnChar '[' name).headD name
                else name
    let name := if name.any (fun c => c == '.') then (splitOnChar '.' name).getLastD name
                else name
    String.mk name

/-- Models `_is_public` (identical in both generator files). -/
def isPublic (nm : String) : Bool :=
  !nm.isEmpty && !nm.startsWith "_"

/-- Models `_class_score` (identical in both generator files). -/
def classScore (c : ClassInfo) : Nat :=
  2 * c.methods.length + 3 * c.bases.length + 3 * c.compositions.length

/-- Models `_module_to_package_name`: `Path(path_str).stem`. -/
def moduleToPackageName (p : String) : String :=
  let base := (p.splitOn "/").getLastD p
  let parts := base.splitOn "."
  if parts.length ≤ 1 then base
  else if parts.headD "" = "" ∧ parts.length = 2 then base
  else String.intercalate "." parts.dropLast

/-- Ascending lexicographic order on string pairs, as Python `sorted` uses on
2-tuples. -/
def strPairLe (a b : String × String) : Bool :=
  if a.1 = b.1 then decide (a.2 ≤ b.2) else decide (a.1 < b.1)

/-- Ascending lexicographic order on string 4-tuples, as Python `sorted` uses
on the relation tuples. -/
def strQuadLe (a b : String × String × String × String) : Bool :=
  if a.1 = b.1 then
    if a.2.1 = b.2.1 then
      if a.2.2.1 = b.2.2.1 then decide (a.2.2.2 ≤ b.2.2.2)
      else decide (a.2.2.1 < b.2.2.1)
    else decide (a.2.1 < b.2.1)
  else decide (a.1 < b.1)

/-- PlantUML: the flattened `(module, class)` candidate list. -/
def plantAllClasses (modules : List ModuleInfo) : List (String × ClassInfo) :=
  modules.flatMap (fun m => m.classes.map (fun c => (m.path, c)))

/-- PlantUML: sort descending by `_class_score` (stably, as Python
`list.sort(reverse=True)`) and keep the top `max_classes` when the limit is
positive. -/
def plantSelectClasses (modules : List ModuleInfo) (maxClasses : Nat) :
    List (String × ClassInfo) :=
  let all := plantAllClasses modules
  if 0 < maxClasses then
    (all.mergeSort (fun a b => decide (classScore b.2 ≤ classScore a.2))).take maxClasses
  else all

/-- PlantUML: `selected_class_names` (a Python `set`; list membership models
set membership). -/
def plantSelectedNames (modules : List ModuleInfo) (maxClasses : Nat) : List String :=
  (plantSelectClasses modules maxClasses).map (fun p => p.2.name)

/-- PlantUML: the deduplicated, sorted `(child, parent)` inheritance edges
that `generate_class_diagram` emits. -/
def plantInheritanceEdges (modules : List ModuleInfo) (maxClasses : Nat) :
    List (String × String) :=
  let sel := plantSelectClasses modules maxClasses
  let names := plantSelectedNames modules maxClasses
  let raw := sel.flatMap (fun p =>
    p.2.bases.filterMap (fun base =>
      let parent := shortClassName base
      if parent = "" then none
      else if parent = "object" then none
      else if parent ∈ names then some (p.2.name, parent)
      else none))
  raw.dedup.mergeSort strPairLe

/-- PlantUML: the deduplicated, sorted `(owner, arrow, target, label)`
composition/aggregation tuples that `generate_class_diagram` emits. -/
def plantRelationEdges (modules : List ModuleInfo) (maxClasses : Nat) :
    List (String × String × String × String) :=
  let sel := plantSelectClasses modules maxClasses
  let names := plantSelectedNames modules maxClasses
  let raw := sel.flatMap (fun p =>
    p.2.compositions.filterMap (fun rel =>
      let a := if rel.owner = "" then p.2.name else rel.owner
      let b := shortClassName rel.target
      if a ∈ names ∧ b ∈ names then
        some (a, (if rel.kind = "composition" then "*--" else "o--"), b, rel.attr)
      else none))
  raw.dedup.mergeSort strQuadLe

/-- One PlantUML class block (`render_class`). -/
def plantRenderClass (publicOnly : Bool) (c : ClassInfo) : List String :=
  ["class " ++ c.name ++ " \x7b"] ++
    (c.methods.filterMap (fun m =>
      if publicOnly && !isPublic m.name then none
      else some ("    + " ++ m.name ++ "()"))) ++
    ["\x7d", ""]

/-- First-occurrence-order key list, as a Python `dict` built with
`setdefault` keeps it. -/
def firstDedup : List String → List String
  | [] => []
  | x :: rest => x :: firstDedup (rest.filter (fun y => y ≠ x))
  termination_by l => l.length
  decreasing_by
    simpa using Nat.lt_succ_of_le (List.length_filter_le _ rest)

/-- Models `DiagramGenerator.generate_class_diagram`. -/
def generate_class_diagram (modules : List ModuleInfo)
    (publicOnly groupByModule showRelations : Bool) (maxClasses : Nat) : String :=
  let sel := plantSelectClasses modules maxClasses
  let header := ["@startuml", ""]
  let classLines :=
    if groupByModule then
      (firstDedup (sel.map Prod.fst)).flatMap (fun path =>
        let classes := (sel.filter (fun p => p.1 = path)).map Prod.snd
        ["package \"" ++ moduleToPackageName path ++ "\" \x7b"] ++
          classes.flatMap (plantRenderClass publicOnly) ++ ["\x7d", ""])
    else sel.flatMap (fun p => plantRenderClass publicOnly p.2)
  if !showRelations then
    String.intercalate "\n" (header ++ classLines ++ ["@enduml"])
  else
    let inh := (plantInheritanceEdges modules maxClasses).map
      (fun e => e.1 ++ " --|> " ++ e.2)
    let rels := (plantRelationEdges modules maxClasses).map (fun q =>
      if q.2.2.2 ≠ "" then
        q.1 ++ " " ++ q.2.1 ++ " " ++ q.2.2.1 ++ " : \"" ++ q.2.2.2 ++ "\""
      else q.1 ++ " " ++ q.2.1 ++ " " ++ q.2.2.1)
    String.intercalate "\n" (header ++ classLines ++ inh ++ rels ++ ["", "@enduml"])

/-- Mermaid: the flattened class list. -/
def mermaidAllClasses (modules : List ModuleInfo) : List ClassInfo :=
  modules.flatMap (fun m => m.classes)

/-- Mermaid: top-N selection (same scoring and stable descending sort). -/
def mermaidSelectClasses (modules : List ModuleInfo) (maxClasses : Nat) :
    List ClassInfo :=
  let all := mermaidAllClasses modules
  if 0 < maxClasses then
    (all.mergeSort (fun a b => decide (classScore b ≤ classScore a))).take maxClasses
  else all

/-- Mermaid: `class_names`. -/
def mermaidSelectedNames (modules : List ModuleInfo) (maxClasses : Nat) : List String :=
  (mermaidSelectClasses modules maxClasses).map ClassInfo.name

/-- Mermaid: the deduplicated, sorted `(child, parent)` inheritance edges. -/
def mermaidInheritanceEdges (modules : List ModuleInfo) (maxClasses : Nat) :
    List (String × String) :=
  let sel := mermaidSelectClasses modules maxClasses
  let names := mermaidSelectedNames modules maxClasses
  let raw := sel.flatMap (fun cls =>
    cls.bases.filterMap (fun base =>
      let parent := shortClassName base
      if parent = "" then none
      else if parent = "object" then none
      else if parent ∈ names then some (cls.name, parent)
      else none))
  raw.dedup.mergeSort strPairLe

/-- Mermaid: the deduplicated, sorted relation tuples. -/
def mermaidRelationEdges (modules : List ModuleInfo) (maxClasses : Nat) :
    List (String × String × String × String) :=
  let sel := mermaidSelectClasses modules maxClasses
  let names := mermaidSelectedNames modules maxClasses
  let raw := sel.flatMap (fun cls =>
    cls.compositions.filterMap (fun rel =>
      let a := if rel.owner = "" then cls.name else rel.owner
      let b := shortClassName rel.target
      if a ∈ names ∧ b ∈ names then
        some (a, (if rel.kind = "composition" then "*--" else "o--"), b, rel.attr)
      else none))
  raw.dedup.mergeSort strQuadLe

/-- Models `MermaidDiagramGenerator.generate_class_diagram` (`group_by_module`
is accepted by the Python method and deliberately ignored, so it is absent
here). -/
def mermaid_generate_class_diagram (modules : List ModuleInfo)
    (publicOnly showRelations : Bool) (maxClasses : Nat) : String :=
  let sel := mermaidSelectClasses modules maxClasses
  let classLines := sel.flatMap (fun cls =>
    ["class " ++ cls.name] ++
      cls.methods.filterMap (fun m =>
        if publicOnly && !isPublic m.name then none
        else some (cls.name ++ " : +" ++ m.name ++ "()")))
  if !showRelations then
    String.intercalate "\n" ("classDiagram" :: classLines)
  else
    let inh := (mermaidInheritanceEdges modules maxClasses).map
      (fun e => e.2 ++ " <|-- " ++ e.1)
    let rels := (mermaidRelationEdges modules maxClasses).map (fun q =>
      if q.2.2.2 ≠ "" then q.1 ++ " " ++ q.2.1 ++ " " ++ q.2.2.1 ++ " : " ++ q.2.2.2
      else q.1 ++ " " ++ q.2.1 ++ " " ++ q.2.2.1)
    String.intercalate "\n" ("classDiagram" :: classLines ++ inh ++ rels)

/-! ## Source loader (`app/text_loader.py`) -/

/-- Models `text_loader.SourceText`. -/
structure SourceText where
  text : String
  encoding : String
  used_fallback : Bool
  truncated : Bool
  deriving DecidableEq, Repr

/-- A UTF-8 continuation byte. -/
def isCont (b : Nat) : Bool :=
  0x80 ≤ b && b ≤ 0xBF

/-- Strict UTF-8 decoding of a byte list (models `raw.decode("utf-8")`:
`none` models the `UnicodeDecodeError`). -/
def utf8DecodeStrict : List Nat → Option (List Char)
  | [] => some []
  | b :: rest =>
    if b < 0x80 then (utf8DecodeStrict rest).map (Char.ofNat b :: ·)
    else if 0xC2 ≤ b ∧ b ≤ 0xDF then
      match rest with
      | c1 :: rest1 =>
        if isCont c1 then
          (utf8DecodeStrict rest1).map (Char.ofNat ((b - 0xC0) * 64 + (c1 - 0x80)) :: ·)
        else none
      | [] => none
    else if b = 0xE0 then
      match rest with
      | c1 :: c2 :: rest2 =>
        if (0xA0 ≤ c1 ∧ c1 ≤ 0xBF) ∧ isCont c2 then
          (utf8DecodeStrict rest2).map
            (Char.ofNat ((b - 0xE0) * 4096 + (c1 - 0x80) * 64 + (c2 - 0x80)) :: ·)
        else none
      | _ => none
    else if (0xE1 ≤ b ∧ b ≤ 0xEC) ∨ b = 0xEE ∨ b = 0xEF then
      match rest with
      | c1 :: c2 :: rest2 =>
        if isCont c1 ∧ isCont c2 then
          (utf8DecodeStrict rest2).map
            (Char.ofNat ((b - 0xE0) * 4096 + (c1 - 0x80) * 64 + (c2 - 0x80)) :: ·)
        else none
      | _ => none
    else if b = 0xED then
      match rest with
      | c1 :: c2 :: rest2 =>
        if (0x80 ≤ c1 ∧ c1 ≤ 0x9F) ∧ isCont c2 then
          (utf8DecodeStrict rest2).map
            (Char.ofNat ((b - 0xE0) * 4096 + (c1 - 0x80) * 64 + (c2 - 0x80)) :: ·)
        else none
      | _ => none
    else if b = 0xF0 then
      match rest with
      | c1 :: c2 :: c3 :: rest3 =>
        if (0x90 ≤ c1 ∧ c1 ≤ 0xBF) ∧ isCont c2 ∧ isCont c3 then
          (utf8DecodeStrict rest3).map
            (Char.ofNat ((b - 0xF0) * 262144 + (c1 - 0x80) * 4096 +
              (c2 - 0x80) * 64 + (c3 - 0x80)) :: ·)
        else none
      | _ => none
    else if 0xF1 ≤ b ∧ b ≤ 0xF3 then
      match rest with
      | c1 :: c2 :: c3 :: rest3 =>
        if isCont c1 ∧ isCont c2 ∧ isCont c3 then
          (utf8DecodeStrict rest3).map
            (Char.ofNat ((b - 0xF0) * 262144 + (c1 - 0x80) * 4096 +
              (c2 - 0x80) * 64 + (c3 - 0x80)) :: ·)
        else none
      | _ => none
    else if b = 0xF4 then
      match rest with
      | c1 :: c2 :: c3 :: rest3 =>
        if (0x80 ≤ c1 ∧ c1 ≤ 0x8F) ∧ isCont c2 ∧ isCont c3 then
          (utf8DecodeStrict rest3).map
            (Char.ofNat ((b - 0xF0) * 262144 + (c1 - 0x80) * 4096 +
              (c2 - 0x80) * 64 + (c3 - 0x80)) :: ·)
        else none
      | _ => none
    else none

/-- Lossy UTF-8 decoding (models `raw.decode("utf-8", errors="replace")`): the
valid scalar sequences decode as in the strict decoder, and an offending lead
byte becomes one U+FFFD replacement character. -/
def utf8DecodeReplace : List Nat → List Char
  | [] => []
  | b :: rest =>
    if b < 0x80 then Char.ofNat b :: utf8DecodeReplace rest
    else if 0xC2 ≤ b ∧ b ≤ 0xDF then
      match rest with
      | c1 :: rest1 =>
        if isCont c1 then
          Char.ofNat ((b - 0xC0) * 64 + (c1 - 0x80)) :: utf8DecodeReplace rest1
        else '�' :: utf8DecodeReplace (c1 :: rest1)
      | [] => ['�']
    else if b = 0xE0 then
      match rest with
      | c1 :: c2 :: rest2 =>
        if (0xA0 ≤ c1 ∧ c1 ≤ 0xBF) ∧ isCont c2 then
          Char.ofNat ((b - 0xE0) * 4096 + (c1 - 0x80) * 64 + (c2 - 0x80)) ::
            utf8DecodeReplace rest2
        else '�' :: utf8DecodeReplace (c1 :: c2 :: rest2)
      | _ => ['�']
    else if (0xE1 ≤ b ∧ b ≤ 0xEC) ∨ b = 0xEE ∨ b = 0xEF then
      match rest with
      | c1 :: c2 :: rest2 =>
        if isCont c1 ∧ isCont c2 then
          Char.ofNat ((b - 0xE0) * 4096 + (c1 - 0x80) * 64 + (c2 - 0x80)) ::
            utf8DecodeReplace rest2
        else '�' :: utf8DecodeReplace (c1 :: c2 :: rest2)
      | _ => ['�']
    else if b = 0xED then
      match rest with
      | c1 :: c2 :: rest2 =>
        if (0x80 ≤ c1 ∧ c1 ≤ 0x9F) ∧ isCont c2 then
          Char.ofNat ((b - 0xE0) * 4096 + (c1 - 0x80) * 64 + (c2 - 0x80)) ::
            utf8DecodeReplace rest2
        else '�' :: utf8DecodeReplace (c1 :: c2 :: rest2)
      | _ => ['�']
    else if b = 0xF0 then
      match rest with
      | c1 :: c2 :: c3 :: rest3 =>
        if (0x90 ≤ c1 ∧ c1 ≤ 0xBF) ∧ isCont c2 ∧ isCont c3 then
          Char.ofNat ((b - 0xF0) * 262144 + (c1 - 0x80) * 4096 +
            (c2 - 0x80) * 64 + (c3 - 0x80)) :: utf8DecodeReplace rest3
        else '�' :: utf8DecodeReplace (c1 :: c2 :: c3 :: rest3)
      | _ => ['�']
    else if 0xF1 ≤ b ∧ b ≤ 0xF3 then
      match rest with
      | c1 :: c2 :: c3 :: rest3 =>
        if isCont c1 ∧ isCont c2 ∧ isCont c3 then
          Char.ofNat ((b - 0xF0) * 262144 + (c1 - 0x80) * 4096 +
            (c2 - 0x80) * 64 + (c3 - 0x80)) :: utf8DecodeReplace rest3
        else '�' :: utf8DecodeReplace (c1 :: c2 :: c3 :: rest3)
      | _ => ['�']
    else if b = 0xF4 then
      match rest with
      | c1 :: c2 :: c3 :: rest3 =>
        if (0x80 ≤ c1 ∧ c1 ≤ 0x8F) ∧ isCont c2 ∧ isCont c3 then
          Char.ofNat ((b - 0xF0) * 262144 + (c1 - 0x80) * 4096 +
            (c2 - 0x80) * 64 + (c3 - 0x80)) :: utf8DecodeReplace rest3
        else '�' :: utf8DecodeReplace (c1 :: c2 :: c3 :: rest3)
      | _ => ['�']
    else '�' :: utf8DecodeReplace rest

/-- Splits off one line of bytes keeping the line ending, as
`bytes.splitlines(True)` does (terminators `\n`, `\r\n`, `\r`). -/
def takeOneLine : List Nat → List Nat × List Nat
  | [] => ([], [])
  | 10 :: rest => ([10], rest)
  | 13 :: 10 :: rest => ([13, 10], rest)
  | 13 :: rest => ([13], rest)
  | b :: rest =>
    let p := takeOneLine rest
    (b :: p.1, p.2)

/-- Latin-1 decoding of header bytes (1:1 byte-to-code-point). -/
def latin1 (bs : List Nat) : List Char :=
  bs.map Char.ofNat

/-- A character of the PEP-263 cookie's encoding-name class `[-\w.]`. -/
def isEncChar (c : Char) : Bool :=
  c.isAlphanum || c == '_' || c == '-' || c == '.'

/-- Case-insensitive literal match of a lowercase pattern, returning the rest
of the input on success. -/
def matchCI : List Char → List Char → Option (List Char)
  | [], l => some l
  | _ :: _, [] => none
  | p :: ps, c :: cs => if c.toLower = p then matchCI ps cs else none

/-- Tries `coding[:=][ \t]*([-\w.]+)` at the current position. -/
def tryCodingHere (l : List Char) : Option String :=
  match matchCI ['c', 'o', 'd', 'i', 'n', 'g'] l with
  | none => none
  | some rest1 =>
    match rest1 with
    | c :: rest2 =>
      if c = ':' ∨ c = '=' then
        let rest3 := rest2.dropWhile (fun c => c == ' ' || c == '\t')
        let enc := rest3.takeWhile isEncChar
        if enc.isEmpty then none else some (String.mk enc)
      else none
    | [] => none

/-- The lazy `.*?coding[:=]...` search: try each position left to right, never
crossing a newline (regex `.` does not match `\n`). -/
def scanCoding : List Char → Option String
  | [] => none
  | c :: rest =>
    match tryCodingHere (c :: rest) with
    | some enc => some enc
    | none => if c = '\n' then none else scanCoding rest

/-- Models `_PEP263_LINE_RE.match(line)` on one decoded header line. -/
def pep263Line (line : List Char) : Option String :=
  match line.dropWhile (fun c => c == ' ' || c == '\t' || c == '\x0c') with
  | '#' :: tail => scanCoding tail
  | _ => none

/-- Models `_detect_pep263_encoding_from_lines`. -/
def detectPep263 (line1 line2 : List Char) : Option String :=
  match pep263Line line1 with
  | some enc => some enc
  | none => pep263Line line2

/-- The final UTF-8 attempt of `read_python_source` (steps 3–4): strict UTF-8,
then lossy UTF-8 with `used_fallback := true`. -/
def utf8Fallback (raw : List Nat) (truncated : Bool) : SourceText :=
  match utf8DecodeStrict raw with
  | some cs =>
    { text := String.mk cs, encoding := "utf-8", used_fallback := false
      truncated := truncated }
  | none =>
    { text := String.mk (utf8DecodeReplace raw), encoding := "utf-8"
      used_fallback := true, truncated := truncated }

/-- Step 0 of `read_python_source`: the size-ceiling truncation. -/
def truncateRaw (maxBytes : Nat) (raw0 : List Nat) : List Nat × Bool :=
  if 0 < maxBytes ∧ maxBytes < raw0.length then (raw0.take maxBytes, true)
  else (raw0, false)

/-- PEP-263 detection over the first two byte lines decoded as latin-1
(step 2 of `read_python_source`). -/
def headerEncoding (raw : List Nat) : Option String :=
  detectPep263 (latin1 (takeOneLine raw).1)
    (latin1 (takeOneLine (takeOneLine raw).2).1)

/-- Models `read_python_source` from the raw bytes on (everything after the
unguarded `path.read_bytes()` call).  `decodeNamed` is the external codec
registry used for a PEP-263 cookie (`none` models both `LookupError` and
`UnicodeDecodeError`, which the source catches identically). -/
def read_python_source_core (decodeNamed : String → List Nat → Option String)
    (maxBytes : Nat) (raw0 : List Nat) : SourceText :=
  let p := truncateRaw maxBytes raw0
  let raw := p.1
  let truncated := p.2
  if raw.take 3 = [0xEF, 0xBB, 0xBF] then
    let txt := (utf8DecodeReplace raw).dropWhile (fun c => c == '﻿')
    { text := String.mk txt, encoding := "utf-8-sig", used_fallback := false
      truncated := truncated }
  else
    match headerEncoding raw with
    | some enc =>
      match decodeNamed enc raw with
      | some text =>
        { text := text, encoding := enc, used_fallback := false
          truncated := truncated }
      | none => utf8Fallback raw truncated
    | none => utf8Fallback raw truncated

/-- Models `read_python_source` including the initial `path.read_bytes()`
call, which the source does not guard: an I/O error reading the file
propagates to the caller unchanged, while everything after a successful read
is total. -/
def read_python_source (decodeNamed : String → List Nat → Option String)
    (maxBytes : Nat) (readResult : Except String (List Nat)) :
    Except String SourceText :=
  match readResult with
  | .error e => .error e
  | .ok raw => .ok (read_python_source_core decodeNamed maxBytes raw)

/-! ## Tech-stack classifier (`app/tech_stack_analyzer.py`) -/

def WEB_FRAMEWORKS : List String :=
  ["django", "flask", "fastapi", "starlette", "tornado", "sanic", "aiohttp"]

def WEB_RUNTIME : List String :=
  ["uvicorn", "gunicorn", "hypercorn", "granian"]

def WEB_RELATED : List String :=
  ["pydantic", "sqlalchemy", "alembic", "jinja2", "httpx", "requests",
   "celery", "redis", "psycopg2", "asyncpg"]

def ML_CORE : List String :=
  ["torch", "tensorflow", "keras", "jax", "flax", "sklearn", "scikit-learn",
   "xgboost", "lightgbm", "catboost", "transformers", "datasets", "spacy",
   "opencv-python"]

def SCIENTIFIC_CORE : List String :=
  ["numpy", "scipy", "pandas", "matplotlib", "seaborn", "sympy",
   "statsmodels", "jupyter", "ipykernel", "notebook", "plotly", "bokeh",
   "astropy"]

def CLI_CORE : List String :=
  ["click", "typer", "rich", "textual", "prompt-toolkit", "docopt"]

/-- `len(all_packages & S)`: the Python operands are sets, so the list inputs
are deduplicated before counting. -/
def interCount (packages s : List String) : Nat :=
  (packages.dedup.filter (fun p => p ∈ s)).length

/-- `bool(all_packages & S)`. -/
def interNonempty (packages s : List String) : Bool :=
  packages.any (fun p => p ∈ s)

/-- The `scores` dict of `TechStackAnalyzer._classify`, in its insertion
order, over exact rationals (the Python floats 4.0, 2.0, 0.5, 1.5, 1.2, 1.0
are all exactly representable or only compared, never accumulated across
magnitudes that matter to the claims). -/
def classifyScoreList (allPackages frameworks : List String)
    (poetryScripts : Bool) : List (String × ℚ) :=
  let web : ℚ := 4 * (frameworks.dedup.length : ℚ) +
    (if interNonempty allPackages WEB_RUNTIME then 2 else 0) +
    (1 / 2) * (interCount allPackages WEB_RELATED : ℚ)
  let ml : ℚ := (3 / 2) * (interCount allPackages ML_CORE : ℚ) +
    (if interNonempty allPackages ["torch", "tensorflow", "jax"] then 2 else 0)
  let scientific : ℚ := (interCount allPackages SCIENTIFIC_CORE : ℚ) +
    (if interNonempty allPackages ["numpy", "scipy"] then 1 else 0)
  let cli : ℚ := (6 / 5) * (interCount allPackages CLI_CORE : ℚ) +
    (if poetryScripts then 4 else 0)
  [("web", web), ("ml", ml), ("cli", cli), ("scientific", scientific)]

/-- Python `max(iterable, key=...)`: the first element of maximal key wins
(later elements replace the accumulator only when strictly greater). -/
def maxFirst : String × ℚ → List (String × ℚ) → String × ℚ
  | acc, [] => acc
  | acc, x :: rest => maxFirst (if acc.2 < x.2 then x else acc) rest

/-- Python `max(items, key=...)` over a list (the empty case cannot arise from
the score dict). -/
def bestOfList (l : List (String × ℚ)) : String × ℚ :=
  match l with
  | [] => ("unknown", 0)
  | s :: rest => maxFirst s rest

/-- `best_type`/`best_score` of `_classify`: `max(scores.items(), key=score)`
over the insertion-ordered score table. -/
def bestBucket (allPackages frameworks : List String) (poetryScripts : Bool) :
    String × ℚ :=
  bestOfList (classifyScoreList allPackages frameworks poetryScripts)

/-- `second_score` of `_classify`: the second entry of the descending-sorted
score values. -/
def secondScore (allPackages frameworks : List String) (poetryScripts : Bool) : ℚ :=
  let sortedVals := ((classifyScoreList allPackages frameworks poetryScripts).map
    (fun p => p.2)).mergeSort (fun a b => decide (b ≤ a))
  (sortedVals[1]?).getD 0

/-- Models `TechStackAnalyzer._classify` restricted to its classification
output `(best_type, confidence)`; the score table is `classifyScoreList`. -/
def classify (allPackages frameworks : List String) (poetryScripts : Bool) :
    String × ℚ :=
  let best := bestBucket allPackages frameworks poetryScripts
  let second := secondScore allPackages frameworks poetryScripts
  let margin := max 0 (best.2 - second)
  let confidence := if 0 < best.2 then min 1 ((1 / 4) * margin) else 0
  if best.2 ≤ 0 then ("unknown", 0) else (best.1, confidence)

/-! ## Derived definitions used by the verification -/

/-- The attribute-identity triples `(owning class name, attribute name,
is-instance flag)` of a class, in attribute order. -/
def perClassKeys (c : ClassInfo) : List (String × String × Bool) :=
  c.attributes.map (fun a => (c.name, a.name, a.is_instance))

/-- All attribute-identity triples in a class list. -/
def attrKeys (l : List ClassInfo) : List (String × String × Bool) :=
  l.flatMap perClassKeys

/-- The visitor's ambient traversal context (both stacks and the depth
counter) — each visit call restores it on return. -/
def SameStacks (st st' : VState) : Prop :=
  st'.classStack = st.classStack ∧ st'.functionStack = st.functionStack ∧
    st'.functionDepth = st.functionDepth

/-- Attribute/composition bookkeeping touches neither the traversal context
nor the module-level `functions`/`imports` output. -/
def PreservesCtx (st st' : VState) : Prop :=
  SameStacks st st' ∧ st'.functions = st.functions ∧ st'.imports = st.imports

/-- The structural invariant of the visitor state: no recorded method is the
designated initializer, attribute-identity triples are globally distinct and
all recorded in `seenAttrs`, and no composition edge targets a primitive type
name. -/
def GoodClasses (st : VState) : Prop :=
  (∀ c ∈ st.classes, ∀ m ∈ c.methods, m.name ≠ "__init__") ∧
  (attrKeys st.classes).Nodup ∧
  (∀ k ∈ attrKeys st.classes, k ∈ st.seenAttrs) ∧
  (∀ c ∈ st.classes, ∀ e ∈ c.compositions, e.target ∉ PRIMITIVE_TYPES)

/-! ## Basic lemmas -/

theorem modifyAt_of_get (f : ClassInfo → ClassInfo) :
    ∀ (l : List ClassInfo) (i : Nat) (c : ClassInfo), l[i]? = some c →
      modifyAt i f l = l.take i ++ f c :: l.drop (i + 1) := by
  intro l
  induction l with
  | nil => intro i c h; simp at h
  | cons a rest ih =>
    intro i c h
    cases i with
    | zero =>
      simp at h
      subst h
      simp [modifyAt]
    | succ n =>
      simp at h
      simp [modifyAt, ih n c h]

theorem list_decomp_of_get (l : List ClassInfo) (i : Nat) (c : ClassInfo)
    (h : l[i]? = some c) : l = l.take i ++ c :: l.drop (i + 1) := by
  obtain ⟨hlt, hget⟩ := List.getElem?_eq_some.mp h
  conv_lhs => rw [← List.take_append_drop i l]
  rw [List.drop_eq_getElem_cons hlt, hget]

theorem attrKeys_append (l1 l2 : List ClassInfo) :
    attrKeys (l1 ++ l2) = attrKeys l1 ++ attrKeys l2 := by
  simp [attrKeys]

theorem attrKeys_cons (c : ClassInfo) (l : List ClassInfo) :
    attrKeys (c :: l) = perClassKeys c ++ attrKeys l := by
  simp [attrKeys]

theorem goodClasses_ext {st st' : VState} (hc : st'.classes = st.classes)
    (hs : ∀ k ∈ st.seenAttrs, k ∈ st'.seenAttrs) (h : GoodClasses st) :
    GoodClasses st' := by
  obtain ⟨h1, h2, h3, h4⟩ := h
  exact ⟨hc ▸ h1, hc ▸ h2, fun k hk => hs k (h3 k (hc ▸ hk)), hc ▸ h4⟩

theorem PreservesCtx.selfSame (st : VState) : PreservesCtx st st :=
  ⟨⟨rfl, rfl, rfl⟩, rfl, rfl⟩

theorem PreservesCtx.trans {a b c : VState} (h1 : PreservesCtx a b)
    (h2 : PreservesCtx b c) : PreservesCtx a c := by
  obtain ⟨⟨x1, x2, x3⟩, x4, x5⟩ := h1
  obtain ⟨⟨y1, y2, y3⟩, y4, y5⟩ := h2
  exact ⟨⟨y1.trans x1, y2.trans x2, y3.trans x3⟩, y4.trans x4, y5.trans x5⟩

theorem addInstanceAttr_ctx (st : VState) (i : Nat) (nm : String)
    (ty : Option String) (ln : Option Nat) :
    PreservesCtx st (addInstanceAttr st i nm ty ln) := by
  unfold addInstanceAttr
  split
  · exact .selfSame st
  · split
    · exact .selfSame st
    · exact ⟨⟨rfl, rfl, rfl⟩, rfl, rfl⟩

theorem addClassAttr_ctx (st : VState) (i : Nat) (nm : String)
    (ty : Option String) (ln : Option Nat) :
    PreservesCtx st (addClassAttr st i nm ty ln) := by
  unfold addClassAttr
  split
  · exact .selfSame st
  · split
    · exact .selfSame st
    · exact ⟨⟨rfl, rfl, rfl⟩, rfl, rfl⟩

theorem addComposition_ctx (st : VState) (i : Nat) (a t : String)
    (ln : Option Nat) (k : String) :
    PreservesCtx st (addComposition st i a t ln k) := by
  unfold addComposition
  split
  · exact .selfSame st
  · split
    · exact .selfSame st
    · split
      · exact .selfSame st
      · exact ⟨⟨rfl, rfl, rfl⟩, rfl, rfl⟩

theorem foldl_ctx {α : Type} (g : VState → α → VState)
    (hg : ∀ s a, PreservesCtx s (g s a)) :
    ∀ (l : List α) (st : VState), PreservesCtx st (l.foldl g st) := by
  intro l
  induction l with
  | nil => intro st; exact .selfSame st
  | cons a rest ih =>
    intro st
    exact (hg st a).trans (ih (g st a))

theorem annAssignSelfAttr_ctx (st : VState) (i : Nat) (target ann : Expr)
    (ln : Option Nat) : PreservesCtx st (annAssignSelfAttr st i target ann ln) := by
  unfold annAssignSelfAttr
  split
  · split
    · exact (addInstanceAttr_ctx st i _ _ ln).trans
        (foldl_ctx _ (fun s t => addComposition_ctx s i _ t ln _) _ _)
    · exact .selfSame st
  · exact .selfSame st

theorem annAssignClassAttr_ctx (st : VState) (i : Nat) (target ann : Expr)
    (ln : Option Nat) : PreservesCtx st (annAssignClassAttr st i target ann ln) := by
  unfold annAssignClassAttr
  split
  · split
    · exact .selfSame st
    · exact (addClassAttr_ctx st i _ _ ln).trans
        (foldl_ctx _ (fun s t => addComposition_ctx s i _ t ln _) _ _)
  · exact .selfSame st

theorem visitAnnAssign_ctx (st : VState) (target ann : Expr) (ln : Option Nat) :
    PreservesCtx st (visitAnnAssign st target ann ln) := by
  unfold visitAnnAssign
  split
  · exact .selfSame st
  · exact (annAssignSelfAttr_ctx st _ target ann ln).trans
      (annAssignClassAttr_ctx _ _ target ann ln)

theorem visitAssignTarget_ctx (i : Nat) (inMethod : Bool) (value : Expr)
    (ln : Option Nat) (st : VState) (tgt : Expr) :
    PreservesCtx st (visitAssignTarget i inMethod value ln st tgt) := by
  unfold visitAssignTarget
  split
  · split
    · exact (addInstanceAttr_ctx st i _ _ ln).trans
        (foldl_ctx _ (fun s t => addComposition_ctx s i _ t ln _) _ _)
    · exact .selfSame st
  · split
    · split
      · exact .selfSame st
      · exact (addClassAttr_ctx st i _ _ ln).trans
          (foldl_ctx _ (fun s t => addComposition_ctx s i _ t ln _) _ _)
    · exact .selfSame st

theorem visitAssign_ctx (st : VState) (targets : List Expr) (value : Expr)
    (ln : Option Nat) : PreservesCtx st (visitAssign st targets value ln) := by
  unfold visitAssign
  split
  · exact .selfSame st
  · exact foldl_ctx _ (fun s tgt => visitAssignTarget_ctx _ _ value ln s tgt) targets st

theorem mem_modifyAt (f : ClassInfo → ClassInfo) :
    ∀ (l : List ClassInfo) (i : Nat) (c' : ClassInfo), c' ∈ modifyAt i f l →
      c' ∈ l ∨ ∃ c ∈ l, c' = f c := by
  intro l
  induction l with
  | nil => intro i c' h; simp [modifyAt] at h
  | cons a rest ih =>
    intro i c' h
    cases i with
    | zero =>
      simp [modifyAt] at h
      rcases h with h | h
      · exact Or.inr ⟨a, List.mem_cons_self a rest, h⟩
      · exact Or.inl (List.mem_cons_of_mem a h)
    | succ n =>
      simp [modifyAt] at h
      rcases h with h | h
      · exact Or.inl (h ▸ List.mem_cons_self a rest)
      · rcases ih n c' h with h' | ⟨c, hc, hc'⟩
        · exact Or.inl (List.mem_cons_of_mem a h')
        · exact Or.inr ⟨c, List.mem_cons_of_mem a hc, hc'⟩

theorem attrKeys_modifyAt_eq (f : ClassInfo → ClassInfo)
    (hf : ∀ c, (f c).name = c.name ∧ (f c).attributes = c.attributes) :
    ∀ (l : List ClassInfo) (i : Nat), attrKeys (modifyAt i f l) = attrKeys l := by
  intro l
  induction l with
  | nil => intro i; simp [modifyAt]
  | cons a rest ih =>
    intro i
    cases i with
    | zero =>
      simp only [modifyAt, attrKeys_cons, ih]
      have : perClassKeys (f a) = perClassKeys a := by
        unfold perClassKeys
        rw [(hf a).1, (hf a).2]
      rw [this]
    | succ n => simp only [modifyAt, attrKeys_cons, ih n]

theorem perm_snoc_middle {α : Type} (A M D : List α) (k : α) :
    List.Perm (A ++ ((M ++ [k]) ++ D)) (k :: (A ++ (M ++ D))) := by
  have h1 : A ++ ((M ++ [k]) ++ D) = (A ++ M) ++ k :: D := by simp
  have h2 : k :: (A ++ (M ++ D)) = k :: ((A ++ M) ++ D) := by simp
  rw [h1, h2]
  exact List.perm_middle

theorem good_addAttr (st : VState) (i : Nat) (cls : ClassInfo)
    (hget : st.classes[i]? = some cls) (a : AttributeInfo) (sc : List (String × String × String × String))
    (hkey : (cls.name, a.name, a.is_instance) ∉ st.seenAttrs)
    (h : GoodClasses st) :
    GoodClasses { st with
      seenAttrs := (cls.name, a.name, a.is_instance) :: st.seenAttrs,
      seenComps := sc,
      classes := modifyAt i (fun c => { c with attributes := c.attributes ++ [a] })
        st.classes } := by
  obtain ⟨h1, h2, h3, h4⟩ := h
  have hdecomp := list_decomp_of_get st.classes i cls hget
  have hmod := modifyAt_of_get
    (fun c => { c with attributes := c.attributes ++ [a] }) st.classes i cls hget
  have hclsmem : cls ∈ st.classes := by
    rw [hdecomp]
    exact List.mem_append_right _ (List.mem_cons_self _ _)
  have hpc : perClassKeys { cls with attributes := cls.attributes ++ [a] } =
      perClassKeys cls ++ [(cls.name, a.name, a.is_instance)] := by
    unfold perClassKeys
    simp
  have hperm : List.Perm
      (attrKeys (modifyAt i (fun c => { c with attributes := c.attributes ++ [a] })
        st.classes))
      ((cls.name, a.name, a.is_instance) :: attrKeys st.classes) := by
    rw [hmod]
    conv_rhs => rw [hdecomp]
    simp only [attrKeys_append, attrKeys_cons, hpc]
    exact perm_snoc_middle _ _ _ _
  have hkeynotin : (cls.name, a.name, a.is_instance) ∉ attrKeys st.classes :=
    fun hk => hkey (h3 _ hk)
  refine ⟨?_, ?_, ?_, ?_⟩
  · intro c' hc' m hm
    rcases mem_modifyAt _ st.classes i c' hc' with hin | ⟨c, hcmem, hc'eq⟩
    · exact h1 c' hin m hm
    · subst hc'eq
      exact h1 c hcmem m hm
  · exact hperm.nodup_iff.mpr (List.nodup_cons.mpr ⟨hkeynotin, h2⟩)
  · intro k hk
    rcases List.mem_cons.mp (hperm.subset hk) with hk' | hk'
    · exact hk' ▸ List.mem_cons_self _ _
    · exact List.mem_cons_of_mem _ (h3 k hk')
  · intro c' hc' e he
    rcases mem_modifyAt _ st.classes i c' hc' with hin | ⟨c, hcmem, hc'eq⟩
    · exact h4 c' hin e he
    · subst hc'eq
      exact h4 c hcmem e he

theorem good_modifyOther (st : VState) (i : Nat) (f : ClassInfo → ClassInfo)
    (hf : ∀ c, (f c).name = c.name ∧ (f c).attributes = c.attributes)
    (hfm : ∀ c, ∀ m ∈ (f c).methods, m ∈ c.methods ∨ m.name ≠ "__init__")
    (hfe : ∀ c, ∀ e ∈ (f c).compositions,
      e ∈ c.compositions ∨ e.target ∉ PRIMITIVE_TYPES)
    (sc : List (String × String × String × String))
    (h : GoodClasses st) :
    GoodClasses { st with seenComps := sc,
                          classes := modifyAt i f st.classes } := by
  obtain ⟨h1, h2, h3, h4⟩ := h
  have hkeys := attrKeys_modifyAt_eq f hf st.classes i
  refine ⟨?_, ?_, ?_, ?_⟩
  · intro c' hc' m hm
    rcases mem_modifyAt f st.classes i c' hc' with hin | ⟨c, hcmem, hc'eq⟩
    · exact h1 c' hin m hm
    · subst hc'eq
      rcases hfm c m hm with hm' | hne
      · exact h1 c hcmem m hm'
      · exact hne
  · show (attrKeys (modifyAt i f st.classes)).Nodup
    rw [hkeys]
    exact h2
  · intro k hk
    have hk2 : k ∈ attrKeys (modifyAt i f st.classes) := hk
    rw [hkeys] at hk2
    exact h3 k hk2
  · intro c' hc' e he
    rcases mem_modifyAt f st.classes i c' hc' with hin | ⟨c, hcmem, hc'eq⟩
    · exact h4 c' hin e he
    · subst hc'eq
      rcases hfe c e he with he' | hne
      · exact h4 c hcmem e he'
      · exact hne

theorem good_setInit (st : VState) (i : Nat) (fi : FunctionInfo)
    (h : GoodClasses st) :
    GoodClasses { st with
      classes := modifyAt i (fun c => { c with init := some fi }) st.classes } := by
  have := good_modifyOther st i (fun c => { c with init := some fi })
    (fun c => ⟨rfl, rfl⟩) (fun c m hm => Or.inl hm) (fun c e he => Or.inl he)
    st.seenComps h
  exact this

theorem good_addMethod (st : VState) (i : Nat) (fi : FunctionInfo)
    (hfi : fi.name ≠ "__init__") (h : GoodClasses st) :
    GoodClasses { st with
      classes := modifyAt i (fun c => { c with methods := c.methods ++ [fi] })
        st.classes } := by
  have := good_modifyOther st i (fun c => { c with methods := c.methods ++ [fi] })
    (fun c => ⟨rfl, rfl⟩)
    (fun c m hm => by
      rcases List.mem_append.mp hm with hm' | hm'
      · exact Or.inl hm'
      · simp at hm'
        subst hm'
        exact Or.inr hfi)
    (fun c e he => Or.inl he) st.seenComps h
  exact this

theorem good_addCompEdge (st : VState) (i : Nat) (e : CompositionInfo)
    (he : e.target ∉ PRIMITIVE_TYPES)
    (sc : List (String × String × String × String)) (h : GoodClasses st) :
    GoodClasses { st with seenComps := sc,
                          classes := modifyAt i
                            (fun c => { c with compositions := c.compositions ++ [e] })
                            st.classes } := by
  refine good_modifyOther st i
    (fun c => { c with compositions := c.compositions ++ [e] })
    (fun c => ⟨rfl, rfl⟩) (fun c m hm => Or.inl hm) ?_ sc h
  intro c e' he'
  rcases List.mem_append.mp he' with h' | h'
  · exact Or.inl h'
  · simp at h'
    subst h'
    exact Or.inr he

theorem addInstanceAttr_good (st : VState) (i : Nat) (nm : String)
    (ty : Option String) (ln : Option Nat) (h : GoodClasses st) :
    GoodClasses (addInstanceAttr st i nm ty ln) := by
  unfold addInstanceAttr
  split
  · exact h
  · next cls hget =>
    split
    · exact h
    · next hkey => exact good_addAttr st i cls hget _ _ hkey h

theorem addClassAttr_good (st : VState) (i : Nat) (nm : String)
    (ty : Option String) (ln : Option Nat) (h : GoodClasses st) :
    GoodClasses (addClassAttr st i nm ty ln) := by
  unfold addClassAttr
  split
  · exact h
  · next cls hget =>
    split
    · exact h
    · next hkey => exact good_addAttr st i cls hget _ _ hkey h

theorem addComposition_good (st : VState) (i : Nat) (a t : String)
    (ln : Option Nat) (k : String) (h : GoodClasses st) :
    GoodClasses (addComposition st i a t ln k) := by
  unfold addComposition
  split
  · exact h
  · next hprim =>
    split
    · exact h
    · next cls hget =>
      split
      · exact h
      · exact good_addCompEdge st i
          { owner := cls.name, attr := a, target := t, lineno := ln, kind := k }
          hprim _ h

theorem handleFunctionLike_good (st : VState) (nm : String)
    (decorators : List Expr) (ln : Option Nat) (h : GoodClasses st) :
    GoodClasses (handleFunctionLike st nm decorators ln) := by
  unfold handleFunctionLike
  split
  · split
    · exact good_setInit st _ _ h
    · next hne =>
      refine good_addMethod st _ _ ?_ h
      simpa using hne
  · split
    · exact goodClasses_ext rfl (fun k hk => hk) h
    · exact h

theorem foldl_good {α : Type} (g : VState → α → VState)
    (hg : ∀ s a, GoodClasses s → GoodClasses (g s a)) :
    ∀ (l : List α) (st : VState), GoodClasses st → GoodClasses (l.foldl g st) := by
  intro l
  induction l with
  | nil => intro st h; exact h
  | cons a rest ih =>
    intro st h
    exact ih (g st a) (hg st a h)

theorem annAssignSelfAttr_good (st : VState) (i : Nat) (target ann : Expr)
    (ln : Option Nat) (h : GoodClasses st) :
    GoodClasses (annAssignSelfAttr st i target ann ln) := by
  unfold annAssignSelfAttr
  split
  · split
    · exact foldl_good _ (fun s t => addComposition_good s i _ t ln _) _ _
        (addInstanceAttr_good st i _ _ ln h)
    · exact h
  · exact h

theorem annAssignClassAttr_good (st : VState) (i : Nat) (target ann : Expr)
    (ln : Option Nat) (h : GoodClasses st) :
    GoodClasses (annAssignClassAttr st i target ann ln) := by
  unfold annAssignClassAttr
  split
  · split
    · exact h
    · exact foldl_good _ (fun s t => addComposition_good s i _ t ln _) _ _
        (addClassAttr_good st i _ _ ln h)
  · exact h

theorem visitAnnAssign_good (st : VState) (target ann : Expr) (ln : Option Nat)
    (h : GoodClasses st) : GoodClasses (visitAnnAssign st target ann ln) := by
  unfold visitAnnAssign
  split
  · exact h
  · exact annAssignClassAttr_good _ _ target ann ln
      (annAssignSelfAttr_good st _ target ann ln h)

theorem visitAssignTarget_good (i : Nat) (inMethod : Bool) (value : Expr)
    (ln : Option Nat) (st : VState) (tgt : Expr) (h : GoodClasses st) :
    GoodClasses (visitAssignTarget i inMethod value ln st tgt) := by
  unfold visitAssignTarget
  split
  · split
    · exact foldl_good _ (fun s t => addComposition_good s i _ t ln _) _ _
        (addInstanceAttr_good st i _ _ ln h)
    · exact h
  · split
    · split
      · exact h
      · exact foldl_good _ (fun s t => addComposition_good s i _ t ln _) _ _
          (addClassAttr_good st i _ _ ln h)
    · exact h

theorem visitAssign_good (st : VState) (targets : List Expr) (value : Expr)
    (ln : Option Nat) (h : GoodClasses st) :
    GoodClasses (visitAssign st targets value ln) := by
  unfold visitAssign
  split
  · exact h
  · exact foldl_good _ (fun s tgt => visitAssignTarget_good _ _ value ln s tgt)
      targets st h

theorem good_pushClass (st : VState) (ci : ClassInfo) (stk : List Nat)
    (hm : ci.methods = []) (ha : ci.attributes = []) (hc : ci.compositions = [])
    (h : GoodClasses st) :
    GoodClasses { st with classes := st.classes ++ [ci], classStack := stk } := by
  obtain ⟨h1, h2, h3, h4⟩ := h
  have hkeys : attrKeys (st.classes ++ [ci]) = attrKeys st.classes := by
    rw [attrKeys_append]
    unfold attrKeys
    simp [perClassKeys, ha]
  refine ⟨?_, ?_, ?_, ?_⟩
  · intro c' hc' m hmm
    rcases List.mem_append.mp hc' with hin | hin
    · exact h1 c' hin m hmm
    · simp at hin
      subst hin
      rw [hm] at hmm
      simp at hmm
  · simpa [hkeys] using h2
  · intro k hk
    rw [show ({ st with classes := st.classes ++ [ci], classStack := stk } :
      VState).classes = st.classes ++ [ci] from rfl, hkeys] at hk
    exact h3 k hk
  · intro c' hc' e he
    rcases List.mem_append.mp hc' with hin | hin
    · exact h4 c' hin e he
    · simp at hin
      subst hin
      rw [hc] at he
      simp at he

theorem handleFunctionLike_stacks (st : VState) (nm : String)
    (decorators : List Expr) (ln : Option Nat) :
    SameStacks st (handleFunctionLike st nm decorators ln) := by
  unfold handleFunctionLike
  split
  · split
    · exact ⟨rfl, rfl, rfl⟩
    · exact ⟨rfl, rfl, rfl⟩
  · split
    · exact ⟨rfl, rfl, rfl⟩
    · exact ⟨rfl, rfl, rfl⟩

mutual
theorem visitStmt_stacks (st : VState) (s : Stmt) :
    SameStacks st (visitStmt st s) := by
  cases s with
  | importS names => exact ⟨rfl, rfl, rfl⟩
  | importFrom level mod names => exact ⟨rfl, rfl, rfl⟩
  | classDef nm bases body ln =>
    show SameStacks st (visitStmt st (.classDef nm bases body ln))
    simp only [visitStmt]
    obtain ⟨hc, hf, hd⟩ := visitStmts_stacks (pushClassState st nm bases ln) body
    refine ⟨?_, hf, hd⟩
    show (visitStmts (pushClassState st nm bases ln) body).classStack.tail =
      st.classStack
    rw [hc]
    rfl
  | funcDef isAsync nm decs body ln =>
    show SameStacks st (visitStmt st (.funcDef isAsync nm decs body ln))
    simp only [visitStmt]
    obtain ⟨h1c, h1f, h1d⟩ := handleFunctionLike_stacks st nm decs ln
    obtain ⟨hc, hf, hd⟩ := visitStmts_stacks
      (pushFuncScope (handleFunctionLike st nm decs ln) nm) body
    refine ⟨?_, ?_, ?_⟩
    · show (visitStmts _ body).classStack = st.classStack
      rw [hc]
      exact h1c
    · show (visitStmts _ body).functionStack.tail = st.functionStack
      rw [hf]
      exact h1f
    · show (visitStmts _ body).functionDepth - 1 = st.functionDepth
      rw [hd]
      show (handleFunctionLike st nm decs ln).functionDepth + 1 - 1 =
        st.functionDepth
      rw [Nat.add_sub_cancel]
      exact h1d
  | annAssign target ann v ln =>
    show SameStacks st (visitAnnAssign st target ann ln)
    exact (visitAnnAssign_ctx st target ann ln).1
  | assign targets value ln =>
    show SameStacks st (visitAssign st targets value ln)
    exact (visitAssign_ctx st targets value ln).1
  | otherStmt children =>
    show SameStacks st (visitStmts st children)
    exact visitStmts_stacks st children

theorem visitStmts_stacks (st : VState) (l : List Stmt) :
    SameStacks st (visitStmts st l) := by
  cases l with
  | nil => exact ⟨rfl, rfl, rfl⟩
  | cons s rest =>
    show SameStacks st (visitStmts (visitStmt st s) rest)
    obtain ⟨a1, a2, a3⟩ := visitStmt_stacks st s
    obtain ⟨b1, b2, b3⟩ := visitStmts_stacks (visitStmt st s) rest
    exact ⟨b1.trans a1, b2.trans a2, b3.trans a3⟩
end

mutual
theorem visitStmt_good (st : VState) (s : Stmt) (h : GoodClasses st) :
    GoodClasses (visitStmt st s) := by
  cases s with
  | importS names =>
    show GoodClasses (visitStmt st (.importS names))
    simp only [visitStmt]
    exact goodClasses_ext rfl (fun k hk => hk) h
  | importFrom level mod names =>
    show GoodClasses (visitStmt st (.importFrom level mod names))
    simp only [visitStmt]
    exact goodClasses_ext rfl (fun k hk => hk) h
  | classDef nm bases body ln =>
    show GoodClasses (visitStmt st (.classDef nm bases body ln))
    simp only [visitStmt]
    refine goodClasses_ext rfl (fun k hk => hk) ?_
    refine visitStmts_good (pushClassState st nm bases ln) body ?_
    exact good_pushClass st _ _ rfl rfl rfl h
  | funcDef isAsync nm decs body ln =>
    show GoodClasses (visitStmt st (.funcDef isAsync nm decs body ln))
    simp only [visitStmt]
    refine goodClasses_ext rfl (fun k hk => hk) ?_
    refine visitStmts_good (pushFuncScope (handleFunctionLike st nm decs ln) nm)
      body ?_
    exact goodClasses_ext rfl (fun k hk => hk)
      (handleFunctionLike_good st nm decs ln h)
  | annAssign target ann v ln =>
    show GoodClasses (visitAnnAssign st target ann ln)
    exact visitAnnAssign_good st target ann ln h
  | assign targets value ln =>
    show GoodClasses (visitAssign st targets value ln)
    exact visitAssign_good st targets value ln h
  | otherStmt children =>
    show GoodClasses (visitStmts st children)
    exact visitStmts_good st children h

theorem visitStmts_good (st : VState) (l : List Stmt) (h : GoodClasses st) :
    GoodClasses (visitStmts st l) := by
  cases l with
  | nil => exact h
  | cons s rest =>
    show GoodClasses (visitStmts (visitStmt st s) rest)
    exact visitStmts_good (visitStmt st s) rest (visitStmt_good st s h)
end

theorem handleFunctionLike_funcs_of (st : VState) (nm : String)
    (decorators : List Expr) (ln : Option Nat)
    (h : 0 < st.functionDepth ∨ st.classStack ≠ []) :
    (handleFunctionLike st nm decorators ln).functions = st.functions := by
  unfold handleFunctionLike
  split
  · split
    · rfl
    · rfl
  · next heq =>
    split
    · next hdep =>
      rcases h with hd | hcs
      · simp at hdep
        omega
      · exact absurd heq hcs
    · rfl

mutual
theorem visitStmt_funcs (st : VState) (s : Stmt)
    (h : 0 < st.functionDepth ∨ st.classStack ≠ []) :
    (visitStmt st s).functions = st.functions := by
  cases s with
  | importS names =>
    show (visitStmt st (.importS names)).functions = st.functions
    simp only [visitStmt]
  | importFrom level mod names =>
    show (visitStmt st (.importFrom level mod names)).functions = st.functions
    simp only [visitStmt]
  | classDef nm bases body ln =>
    show (visitStmt st (.classDef nm bases body ln)).functions = st.functions
    simp only [visitStmt]
    exact visitStmts_funcs (pushClassState st nm bases ln) body
      (Or.inr (by simp [pushClassState]))
  | funcDef isAsync nm decs body ln =>
    show (visitStmt st (.funcDef isAsync nm decs body ln)).functions = st.functions
    simp only [visitStmt]
    have h1 := handleFunctionLike_funcs_of st nm decs ln h
    have h2 := visitStmts_funcs
      (pushFuncScope (handleFunctionLike st nm decs ln) nm) body
      (Or.inl (Nat.succ_pos _))
    rw [h2]
    exact h1
  | annAssign target ann v ln =>
    show (visitAnnAssign st target ann ln).functions = st.functions
    exact (visitAnnAssign_ctx st target ann ln).2.1
  | assign targets value ln =>
    show (visitAssign st targets value ln).functions = st.functions
    exact (visitAssign_ctx st targets value ln).2.1
  | otherStmt children =>
    show (visitStmts st children).functions = st.functions
    exact visitStmts_funcs st children h

theorem visitStmts_funcs (st : VState) (l : List Stmt)
    (h : 0 < st.functionDepth ∨ st.classStack ≠ []) :
    (visitStmts st l).functions = st.functions := by
  cases l with
  | nil => rfl
  | cons s rest =>
    show (visitStmts (visitStmt st s) rest).functions = st.functions
    obtain ⟨hc, hf, hd⟩ := visitStmt_stacks st s
    have h' : 0 < (visitStmt st s).functionDepth ∨ (visitStmt st s).classStack ≠ [] := by
      rcases h with hh | hh
      · exact Or.inl (hd ▸ hh)
      · exact Or.inr (hc ▸ hh)
    rw [visitStmts_funcs (visitStmt st s) rest h']
    exact visitStmt_funcs st s h
end

theorem goodClasses_initial : GoodClasses VState.initial := by
  refine ⟨?_, ?_, ?_, ?_⟩
  · intro c hc
    simp [VState.initial] at hc
  · simp [VState.initial, attrKeys]
  · intro k hk
    simp [VState.initial, attrKeys] at hk
  · intro c hc
    simp [VState.initial] at hc

theorem parse_file_classes_good (path : String)
    (pr : Except SyntaxErr (List Stmt)) :
    (∀ c ∈ (parse_file path pr).classes, ∀ m ∈ c.methods, m.name ≠ "__init__") ∧
    (attrKeys (parse_file path pr).classes).Nodup ∧
    (∀ c ∈ (parse_file path pr).classes, ∀ e ∈ c.compositions,
      e.target ∉ PRIMITIVE_TYPES) := by
  cases pr with
  | error e =>
    refine ⟨?_, ?_, ?_⟩
    · intro c hc
      simp [parse_file] at hc
    · simp [parse_file, attrKeys]
    · intro c hc
      simp [parse_file] at hc
  | ok body =>
    obtain ⟨h1, h2, h3, h4⟩ := visitStmts_good VState.initial body goodClasses_initial
    exact ⟨h1, h2, h4⟩

/-! ## Classifier argmax lemmas -/

theorem maxFirst_spec (l : List (String × ℚ)) :
    ∀ (acc : String × ℚ),
      (maxFirst acc l = acc ∨ maxFirst acc l ∈ l) ∧
      acc.2 ≤ (maxFirst acc l).2 ∧ ∀ x ∈ l, x.2 ≤ (maxFirst acc l).2 := by
  induction l with
  | nil =>
    intro acc
    exact ⟨Or.inl rfl, le_refl _, by simp⟩
  | cons x rest ih =>
    intro acc
    obtain ⟨ihmem, ihacc, ihall⟩ := ih (if acc.2 < x.2 then x else acc)
    have hstep : maxFirst acc (x :: rest) =
        maxFirst (if acc.2 < x.2 then x else acc) rest := rfl
    have hacc' : acc.2 ≤ (if acc.2 < x.2 then x else acc).2 := by
      split
      · exact le_of_lt ‹_›
      · exact le_refl _
    have hx' : x.2 ≤ (if acc.2 < x.2 then x else acc).2 := by
      split
      · exact le_refl _
      · exact le_of_not_lt ‹_›
    refine ⟨?_, ?_, ?_⟩
    · rw [hstep]
      rcases ihmem with h | h
      · rw [h]
        split
        · exact Or.inr (List.mem_cons_self _ _)
        · exact Or.inl rfl
      · exact Or.inr (List.mem_cons_of_mem _ h)
    · rw [hstep]
      exact hacc'.trans ihacc
    · intro y hy
      rw [hstep]
      rcases List.mem_cons.mp hy with h | h
      · subst h
        exact hx'.trans ihacc
      · exact ihall y h

theorem bestOfList_spec (l : List (String × ℚ)) (hne : l ≠ []) :
    bestOfList l ∈ l ∧ ∀ x ∈ l, x.2 ≤ (bestOfList l).2 := by
  cases l with
  | nil => exact absurd rfl hne
  | cons s rest =>
    obtain ⟨hmem, hacc, hall⟩ := maxFirst_spec rest s
    refine ⟨?_, ?_⟩
    · rcases hmem with h | h
      · rw [bestOfList, h]
        exact List.mem_cons_self _ _
      · exact List.mem_cons_of_mem _ h
    · intro x hx
      rcases List.mem_cons.mp hx with h | h
      · subst h
        exact hacc
      · exact hall x h

theorem classifyScoreList_nonneg (ap fw : List String) (ps : Bool) :
    ∀ p ∈ classifyScoreList ap fw ps, 0 ≤ p.2 := by
  have hite : ∀ (b : Bool) (w : ℚ), 0 ≤ w → (0:ℚ) ≤ (if b then w else 0) := by
    intro b w hw
    split
    · exact hw
    · exact le_refl _
  intro p hp
  simp only [classifyScoreList, List.mem_cons, List.not_mem_nil, or_false] at hp
  rcases hp with h | h | h | h <;> subst h <;> simp only
  · refine add_nonneg (add_nonneg ?_ ?_) ?_
    · positivity
    · exact hite _ _ (by norm_num)
    · positivity
  · refine add_nonneg ?_ ?_
    · positivity
    · exact hite _ _ (by norm_num)
  · refine add_nonneg ?_ ?_
    · positivity
    · exact hite _ _ (by norm_num)
  · refine add_nonneg ?_ ?_
    · positivity
    · exact hite _ _ (by norm_num)

/-! ## The claims -/

/-- C1: for every input file, `parse_file` never raises — it is a total
function of the external parse outcome — and when the source fails to parse
(the collaborator raised; any traversal exception is caught by the same
handler) it returns a module whose classes, functions and imports are all
empty and whose parse-error metadata is the non-null error description, while
a successful parse carries no parse-error metadata. -/
theorem claim_C1 (path : String) :
    (∀ e : SyntaxErr,
      (parse_file path (.error e)).classes = [] ∧
      (parse_file path (.error e)).functions = [] ∧
      (parse_file path (.error e)).imports = [] ∧
      (parse_file path (.error e)).parse_error = some (formatSyntaxError e)) ∧
    (∀ body : List Stmt, (parse_file path (.ok body)).parse_error = none) :=
  ⟨fun _ => ⟨rfl, rfl, rfl, rfl⟩, fun _ => rfl⟩

/-- C2 counterexample: for `class C: def m(self): self.x: Foo = Foo()` the
extractor records exactly one composition-edge kind — `aggregation`, from the
annotation — not the claimed pair of one `aggregation` and one `composition`
edge: `visit_AnnAssign` never inspects the assigned value, so the call
expression produces no `composition` edge. -/
theorem claim_C2_counterexample :
    ((parse_file "m.py" (.ok [.classDef "C" [] [
      .funcDef false "m" [] [
        .annAssign (.attrAccess (.name "self") "x") (.name "Foo")
          (some (.call (.name "Foo") [])) (some 3)] (some 2)] (some 1)])).classes.flatMap
      (fun c => c.compositions)).map CompositionInfo.kind = ["aggregation"] := by
  decide

/-- C2 (amended): for a class attribute that is both annotated and assigned a
call expression, as in `self.x: Foo = Foo()` inside a method, extraction
yields exactly one composition edge for that (owner, attribute) pair, of kind
`aggregation` (from the annotation); the call value of an annotated
assignment contributes no `composition` edge (those arise only from plain
assignments). -/
theorem claim_C2 (path aNm tyNm : String) (l1 lm lc : Option Nat)
    (h : tyNm ∉ PRIMITIVE_TYPES) :
    (parse_file path (.ok [.classDef "C" [] [
      .funcDef false "m" [] [
        .annAssign (.attrAccess (.name "self") aNm) (.name tyNm)
          (some (.call (.name tyNm) [])) l1] lm] lc])).classes =
    [⟨"C", [], none, [⟨"m", lm, []⟩],
      [⟨aNm, some tyNm, l1, true, false⟩],
      [⟨"C", aNm, tyNm, l1, "aggregation"⟩], lc⟩] := by
  simp [parse_file, runVisitor, visitStmts, visitStmt, pushClassState, pushFuncScope,
    handleFunctionLike, modifyAt, VState.initial, visitAnnAssign, annAssignSelfAttr,
    annAssignClassAttr, getSelfAttrName, addInstanceAttr, addComposition,
    extractTypeNames, typeNames, Expr.unparse,
    VState.inMethodScope, VState.isInInit, h]

/-- C2 witness: the amended statement at `self.x: Foo = Foo()`. -/
theorem claim_C2_witness :
    (parse_file "m.py" (.ok [.classDef "C" [] [
      .funcDef false "m" [] [
        .annAssign (.attrAccess (.name "self") "x") (.name "Foo")
          (some (.call (.name "Foo") [])) (some 3)] (some 2)] (some 1)])).classes =
    [⟨"C", [], none, [⟨"m", some 2, []⟩],
      [⟨"x", some "Foo", some 3, true, false⟩],
      [⟨"C", "x", "Foo", some 3, "aggregation"⟩], some 1⟩] :=
  claim_C2 "m.py" "x" "Foo" (some 3) (some 2) (some 1) (by decide)

/-- C3: for every extracted class the methods list never contains an entry
named `__init__` (the initializer is tracked separately), and a class body
defining `__init__` twice keeps the last definition in the `init` field. -/
theorem claim_C3 :
    (∀ (path : String) (pr : Except SyntaxErr (List Stmt)),
      ∀ c ∈ (parse_file path pr).classes, ∀ m ∈ c.methods, m.name ≠ "__init__") ∧
    (∀ (path : String) (d1 d2 : List Expr) (l1 l2 ln : Option Nat),
      (parse_file path (.ok [.classDef "C" [] [
        .funcDef false "__init__" d1 [] l1,
        .funcDef false "__init__" d2 [] l2] ln])).classes =
      [⟨"C", [], some ⟨"__init__", l2, d2.map Expr.unparse⟩, [], [], [], ln⟩]) := by
  constructor
  · intro path pr
    exact (parse_file_classes_good path pr).1
  · intro path d1 d2 l1 l2 ln
    simp [parse_file, runVisitor, visitStmts, visitStmt, pushClassState,
      pushFuncScope, handleFunctionLike, modifyAt, VState.initial]

/-- C3 witness: the no-initializer-in-methods invariant applied to a concrete
module whose class has one ordinary method. -/
theorem claim_C3_witness : (⟨"run", none, []⟩ : FunctionInfo).name ≠ "__init__" :=
  claim_C3.1 "w.py" (.ok [.classDef "D" [] [.funcDef false "run" [] [] none] none])
    ⟨"D", [], none, [⟨"run", none, []⟩], [], [], none⟩ (by decide)
    ⟨"run", none, []⟩ (by decide)

/-- C4: whenever the visitor sits inside a callable (depth > 0) or inside any
class, a visit adds nothing to the module's top-level function list — so a
function nested in another module-level function never appears there — and a
class defined inside another class's body lands in the module's flat class
list as a sibling entry after the outer class. -/
theorem claim_C4 :
    (∀ (st : VState) (s : Stmt), 0 < st.functionDepth ∨ st.classStack ≠ [] →
      (visitStmt st s).functions = st.functions) ∧
    (∀ (path outNm inNm : String) (dO dI : List Expr) (lO lI : Option Nat),
      (parse_file path (.ok [.funcDef false outNm dO
        [.funcDef false inNm dI [] lI] lO])).functions =
      [⟨outNm, lO, dO.map Expr.unparse⟩]) ∧
    (∀ (path nmA nmB : String) (bA bB : List Expr) (lA lB : Option Nat),
      ((parse_file path (.ok [.classDef nmA bA
        [.classDef nmB bB [] lB] lA])).classes.map ClassInfo.name) = [nmA, nmB]) := by
  refine ⟨fun st s h => visitStmt_funcs st s h, ?_, ?_⟩
  · intro path outNm inNm dO dI lO lI
    simp [parse_file, runVisitor, visitStmts, visitStmt, pushClassState,
      pushFuncScope, handleFunctionLike, modifyAt, VState.initial]
  · intro path nmA nmB bA bB lA lB
    simp [parse_file, runVisitor, visitStmts, visitStmt, pushClassState,
      pushFuncScope, handleFunctionLike, modifyAt, VState.initial]

/-- C4 witness: visiting a nested function definition at depth 1 leaves the
top-level function list unchanged. -/
theorem claim_C4_witness :
    (visitStmt ⟨[], [], [], [], 1, ["f"], [], []⟩
      (.funcDef false "g" [] [] none)).functions =
    (⟨[], [], [], [], 1, ["f"], [], []⟩ : VState).functions :=
  claim_C4.1 ⟨[], [], [], [], 1, ["f"], [], []⟩ (.funcDef false "g" [] [] none)
    (Or.inl (by decide))

/-- C5: in any single-module extraction each attribute-identity triple
(owning class name, attribute name, is-instance flag) appears at most once
across the attribute lists, and repeated self-attribute assignment to the
same name in the same class yields exactly one attribute entry. -/
theorem claim_C5 :
    (∀ (path : String) (pr : Except SyntaxErr (List Stmt)),
      (attrKeys (parse_file path pr).classes).Nodup) ∧
    (∀ (path : String) (l1 l2 lm lc : Option Nat),
      (parse_file path (.ok [.classDef "C" [] [
        .funcDef false "m" [] [
          .assign [.attrAccess (.name "self") "x"] .constOther l1,
          .assign [.attrAccess (.name "self") "x"] .constOther l2] lm] lc])).classes =
      [⟨"C", [], none, [⟨"m", lm, []⟩], [⟨"x", none, l1, true, false⟩], [], lc⟩]) := by
  constructor
  · intro path pr
    exact (parse_file_classes_good path pr).2.1
  · intro path l1 l2 lm lc
    simp [parse_file, runVisitor, visitStmts, visitStmt, pushClassState,
      pushFuncScope, handleFunctionLike, modifyAt, VState.initial, visitAssign,
      visitAssignTarget, getSelfAttrName, addInstanceAttr, inferTypeFromValue,
      inferredTypeNames, VState.inMethodScope, VState.isInInit]

/-- C6: no extracted composition or aggregation edge targets a
primitive/builtin type name, and an attribute annotated with such a name
(e.g. `int`) produces an attribute entry but no edge. -/
theorem claim_C6 :
    (∀ (path : String) (pr : Except SyntaxErr (List Stmt)),
      ∀ c ∈ (parse_file path pr).classes, ∀ e ∈ c.compositions,
        e.target ∉ PRIMITIVE_TYPES) ∧
    (∀ (path : String) (l1 lm lc : Option Nat),
      (parse_file path (.ok [.classDef "C" [] [
        .funcDef false "m" [] [
          .annAssign (.attrAccess (.name "self") "x") (.name "int") none l1] lm]
        lc])).classes =
      [⟨"C", [], none, [⟨"m", lm, []⟩],
        [⟨"x", some "int", l1, true, false⟩], [], lc⟩]) := by
  constructor
  · intro path pr
    exact (parse_file_classes_good path pr).2.2
  · intro path l1 lm lc
    simp [parse_file, runVisitor, visitStmts, visitStmt, pushClassState,
      pushFuncScope, handleFunctionLike, modifyAt, VState.initial, visitAnnAssign,
      annAssignSelfAttr, annAssignClassAttr, getSelfAttrName, addInstanceAttr,
      addComposition, extractTypeNames, typeNames, Expr.unparse, PRIMITIVE_TYPES,
      VState.inMethodScope, VState.isInInit]

/-- C6 witness: the invariant applied at a module with a genuine composition
edge (`self.f = Foo()`). -/
theorem claim_C6_witness : ("Foo" : String) ∉ PRIMITIVE_TYPES :=
  claim_C6.1 "w6.py" (.ok [.classDef "A" [] [
      .funcDef false "m" [] [
        .assign [.attrAccess (.name "self") "f"] (.call (.name "Foo") [])
          (some 3)] (some 2)] (some 1)])
    ⟨"A", [], none, [⟨"m", some 2, []⟩],
      [⟨"f", some "Foo", some 3, true, false⟩],
      [⟨"A", "f", "Foo", some 3, "composition"⟩], some 1⟩ (by decide)
    ⟨"A", "f", "Foo", some 3, "composition"⟩ (by decide)

/-- C7: in both diagram notations, every emitted inheritance edge and every
emitted composition/aggregation edge has both endpoints (type-name endpoints
shortened to their bare local name) inside the selected-class-name set, so an
edge naming a class excluded by a top-N limit is never rendered. -/
theorem claim_C7 (modules : List ModuleInfo) (maxC : Nat) :
    (∀ e ∈ plantInheritanceEdges modules maxC,
      e.1 ∈ plantSelectedNames modules maxC ∧
      e.2 ∈ plantSelectedNames modules maxC) ∧
    (∀ e ∈ plantRelationEdges modules maxC,
      e.1 ∈ plantSelectedNames modules maxC ∧
      e.2.2.1 ∈ plantSelectedNames modules maxC) ∧
    (∀ e ∈ mermaidInheritanceEdges modules maxC,
      e.1 ∈ mermaidSelectedNames modules maxC ∧
      e.2 ∈ mermaidSelectedNames modules maxC) ∧
    (∀ e ∈ mermaidRelationEdges modules maxC,
      e.1 ∈ mermaidSelectedNames modules maxC ∧
      e.2.2.1 ∈ mermaidSelectedNames modules maxC) := by
  refine ⟨?_, ?_, ?_, ?_⟩
  · intro e he
    unfold plantInheritanceEdges at he
    rw [List.mem_mergeSort, List.mem_dedup, List.mem_flatMap] at he
    obtain ⟨p, hp, he2⟩ := he
    rw [List.mem_filterMap] at he2
    obtain ⟨base, _hbase, hsome⟩ := he2
    simp only at hsome
    by_cases h1 : shortClassName base = ""
    · rw [if_pos h1] at hsome
      exact Option.noConfusion hsome
    · rw [if_neg h1] at hsome
      by_cases h2 : shortClassName base = "object"
      · rw [if_pos h2] at hsome
        exact Option.noConfusion hsome
      · rw [if_neg h2] at hsome
        by_cases h3 : shortClassName base ∈ plantSelectedNames modules maxC
        · rw [if_pos h3] at hsome
          obtain rfl := Option.some_inj.mp hsome
          exact ⟨List.mem_map.mpr ⟨p, hp, rfl⟩, h3⟩
        · rw [if_neg h3] at hsome
          exact Option.noConfusion hsome
  · intro e he
    unfold plantRelationEdges at he
    rw [List.mem_mergeSort, List.mem_dedup, List.mem_flatMap] at he
    obtain ⟨p, hp, he2⟩ := he
    rw [List.mem_filterMap] at he2
    obtain ⟨rel, _hrel, hsome⟩ := he2
    simp only at hsome
    by_cases hg : ((if rel.owner = "" then p.2.name else rel.owner) ∈
        plantSelectedNames modules maxC ∧
        shortClassName rel.target ∈ plantSelectedNames modules maxC)
    · rw [if_pos hg] at hsome
      obtain rfl := Option.some_inj.mp hsome
      exact ⟨hg.1, hg.2⟩
    · rw [if_neg hg] at hsome
      exact Option.noConfusion hsome
  · intro e he
    unfold mermaidInheritanceEdges at he
    rw [List.mem_mergeSort, List.mem_dedup, List.mem_flatMap] at he
    obtain ⟨cls, hp, he2⟩ := he
    rw [List.mem_filterMap] at he2
    obtain ⟨base, _hbase, hsome⟩ := he2
    simp only at hsome
    by_cases h1 : shortClassName base = ""
    · rw [if_pos h1] at hsome
      exact Option.noConfusion hsome
    · rw [if_neg h1] at hsome
      by_cases h2 : shortClassName base = "object"
      · rw [if_pos h2] at hsome
        exact Option.noConfusion hsome
      · rw [if_neg h2] at hsome
        by_cases h3 : shortClassName base ∈ mermaidSelectedNames modules maxC
        · rw [if_pos h3] at hsome
          obtain rfl := Option.some_inj.mp hsome
          exact ⟨List.mem_map.mpr ⟨cls, hp, rfl⟩, h3⟩
        · rw [if_neg h3] at hsome
          exact Option.noConfusion hsome
  · intro e he
    unfold mermaidRelationEdges at he
    rw [List.mem_mergeSort, List.mem_dedup, List.mem_flatMap] at he
    obtain ⟨cls, hp, he2⟩ := he
    rw [List.mem_filterMap] at he2
    obtain ⟨rel, _hrel, hsome⟩ := he2
    simp only at hsome
    by_cases hg : ((if rel.owner = "" then cls.name else rel.owner) ∈
        mermaidSelectedNames modules maxC ∧
        shortClassName rel.target ∈ mermaidSelectedNames modules maxC)
    · rw [if_pos hg] at hsome
      obtain rfl := Option.some_inj.mp hsome
      exact ⟨hg.1, hg.2⟩
    · rw [if_neg hg] at hsome
      exact Option.noConfusion hsome

/-- C7 witness: the gating applied to a two-class project whose inheritance
edge A ⟶ B survives selection. -/
theorem claim_C7_witness :
    ("A" : String) ∈ plantSelectedNames
      [⟨"m.py", [⟨"A", ["B"], none, [], [], [], none⟩,
        ⟨"B", [], none, [], [], [], none⟩], [], [], none⟩] 0 ∧
    ("B" : String) ∈ plantSelectedNames
      [⟨"m.py", [⟨"A", ["B"], none, [], [], [], none⟩,
        ⟨"B", [], none, [], [], [], none⟩], [], [], none⟩] 0 :=
  (claim_C7 [⟨"m.py", [⟨"A", ["B"], none, [], [], [], none⟩,
      ⟨"B", [], none, [], [], [], none⟩], [], [], none⟩] 0).1 ("A", "B")
    (by unfold plantInheritanceEdges
        simp only [List.mem_mergeSort]
        decide)

/-- C8 counterexample: `read_python_source` does not guard its initial
`path.read_bytes()` call, so when the file cannot be read the I/O error
propagates instead of a decoded-text result being returned — the claim's
"never raises, including when the file cannot be read" fails. -/
theorem claim_C8_counterexample :
    read_python_source (fun _ _ => none) 2097152
      (.error "FileNotFoundError: [Errno 2] No such file or directory") =
      .error "FileNotFoundError: [Errno 2] No such file or directory" ∧
    (read_python_source (fun _ _ => none) 2097152
      (.error "FileNotFoundError: [Errno 2] No such file or directory")).isOk =
      false :=
  ⟨rfl, rfl⟩

/-- C8 (amended): once the file's bytes have been read, `read_python_source`
always returns decoded text plus encoding provenance and never raises — for
every byte input and every behaviour of the external codec registry — and
when the bytes carry no BOM, no usable PEP-263 cookie, and are not valid
UTF-8, the result is the lossy decode flagged `used_fallback`; an I/O error
from the unguarded read itself, however, propagates to the caller. -/
theorem claim_C8 (dec : String → List Nat → Option String) (mb : Nat)
    (raw : List Nat) :
    read_python_source dec mb (.ok raw) =
      .ok (read_python_source_core dec mb raw) ∧
    ((truncateRaw mb raw).1.take 3 ≠ [0xEF, 0xBB, 0xBF] →
      headerEncoding (truncateRaw mb raw).1 = none →
      utf8DecodeStrict (truncateRaw mb raw).1 = none →
      (read_python_source_core dec mb raw).used_fallback = true) := by
  refine ⟨rfl, ?_⟩
  intro h1 h2 h3
  simp only [read_python_source_core]
  rw [if_neg h1, h2]
  simp only [utf8Fallback]
  rw [h3]

/-- C8 witness: one invalid byte with no BOM and no cookie decodes with the
fallback flag set. -/
theorem claim_C8_witness :
    read_python_source (fun _ _ => none) 0 (.ok [0xFF]) =
      .ok (read_python_source_core (fun _ _ => none) 0 [0xFF]) ∧
    (read_python_source_core (fun _ _ => none) 0 [0xFF]).used_fallback = true :=
  ⟨(claim_C8 (fun _ _ => none) 0 [0xFF]).1,
    (claim_C8 (fun _ _ => none) 0 [0xFF]).2 (by decide) (by decide) (by decide)⟩

/-- C9: the classifier's winning bucket scores at least as much as every
bucket; a zero top score yields category "unknown" with confidence exactly
zero; otherwise the result is the winning bucket with confidence
`min 1 (margin / 4)` over the runner-up — a bounded linear function of the
margin — and the returned confidence never exceeds 1. -/
theorem claim_C9 (ap fw : List String) (ps : Bool) :
    (bestBucket ap fw ps ∈ classifyScoreList ap fw ps) ∧
    (∀ p ∈ classifyScoreList ap fw ps, p.2 ≤ (bestBucket ap fw ps).2) ∧
    ((bestBucket ap fw ps).2 = 0 → classify ap fw ps = ("unknown", 0)) ∧
    ((bestBucket ap fw ps).2 ≠ 0 → classify ap fw ps =
      ((bestBucket ap fw ps).1,
        min 1 ((1 / 4) * max 0 ((bestBucket ap fw ps).2 - secondScore ap fw ps)))) ∧
    (classify ap fw ps).2 ≤ 1 := by
  have hne : classifyScoreList ap fw ps ≠ [] := by simp [classifyScoreList]
  obtain ⟨hmem, hall⟩ := bestOfList_spec _ hne
  have hnn : 0 ≤ (bestBucket ap fw ps).2 :=
    classifyScoreList_nonneg ap fw ps _ hmem
  refine ⟨hmem, hall, ?_, ?_, ?_⟩
  · intro h0
    simp only [classify]
    rw [if_pos (le_of_eq h0)]
  · intro hne0
    have hpos : 0 < (bestBucket ap fw ps).2 := lt_of_le_of_ne hnn (Ne.symm hne0)
    simp only [classify]
    rw [if_neg (not_le.mpr hpos), if_pos hpos]
  · by_cases hle : (bestBucket ap fw ps).2 ≤ 0
    · simp only [classify]
      rw [if_pos hle]
      norm_num
    · simp only [classify]
      rw [if_neg hle, if_pos (lt_of_not_le hle)]
      exact min_le_left _ _

theorem ratFour_facts : ¬ (4 : ℚ) < 0 ∧ (4 : ℚ) ≠ 0 := by norm_num

/-- C9 witness: the zero-score case (no packages) returns "unknown" with
confidence 0, and a poetry-scripts-only project classifies as its winning
bucket with the clamped margin confidence. -/
theorem claim_C9_witness :
    classify [] [] false = ("unknown", 0) ∧
    classify [] [] true =
      ((bestBucket [] [] true).1,
        min 1 ((1 / 4) * max 0 ((bestBucket [] [] true).2 -
          secondScore [] [] true))) :=
  ⟨(claim_C9 [] [] false).2.2.1 (by
      simp [bestBucket, bestOfList, maxFirst, classifyScoreList, interCount,
        interNonempty]),
    (claim_C9 [] [] true).2.2.2.1 (by
      simp [bestBucket, bestOfList, maxFirst, classifyScoreList, interCount,
        interNonempty, ratFour_facts.1, ratFour_facts.2])⟩

/-- C10: the primitive-type filter holds exactly the lowercase builtin names,
and type-name extraction from a subscripted annotation collects every
reachable identifier, so `self.x: List[Foo]` and `self.z: Optional[Foo]`
each yield aggregation edges to both the typing-container name and `Foo`,
while lowercase `self.y: list` yields an attribute entry and no edge. -/
theorem claim_C10 :
    (parse_file "m.py" (.ok [.classDef "C" [] [
      .funcDef false "m" [] [
        .annAssign (.attrAccess (.name "self") "x")
          (.subscript (.name "List") (.name "Foo")) none (some 3),
        .annAssign (.attrAccess (.name "self") "y") (.name "list") none (some 4),
        .annAssign (.attrAccess (.name "self") "z")
          (.subscript (.name "Optional") (.name "Foo")) none (some 5)] (some 2)]
      (some 1)])).classes =
    [⟨"C", [], none, [⟨"m", some 2, []⟩],
      [⟨"x", some "List[Foo]", some 3, true, false⟩,
       ⟨"y", some "list", some 4, true, false⟩,
       ⟨"z", some "Optional[Foo]", some 5, true, false⟩],
      [⟨"C", "x", "List", some 3, "aggregation"⟩,
       ⟨"C", "x", "Foo", some 3, "aggregation"⟩,
       ⟨"C", "z", "Optional", some 5, "aggregation"⟩,
       ⟨"C", "z", "Foo", some 5, "aggregation"⟩], some 1⟩] ∧
    "List" ∉ PRIMITIVE_TYPES ∧ "Optional" ∉ PRIMITIVE_TYPES ∧
    "list" ∈ PRIMITIVE_TYPES ∧
    PRIMITIVE_TYPES =
      ["int", "str", "float", "bool", "dict", "list", "set", "tuple", "None"] := by
  decide

end ProjectAnalyzer
